import Mathlib

/-!
Verification of the conversation-driven SQL query-completion agent
(`ai_agent_service`): a shallow embedding of the value parser, SQL text
extractor, schema validator, SQL finalizer/executor, configuration
registry, and the conversation state-machine nodes, together with proofs
of the specified properties.

Conventions of the embedding:
* Python values flowing through the pipeline are modelled by `PyVal`
  (`None`, `str`, `int`, `float`); float values are carried as their
  literal source text, since exact IEEE-754 formatting is irrelevant to
  every property proved here.
* Python exceptions are modelled with `Except String`; a `try/except`
  block becomes a `match` on the `Except` value.
* Python dicts whose insertion order matters are modelled as association
  lists (`List (String × PyVal)` etc.); lookup takes the first binding,
  as dict keys are unique at every construction site.
* Character classes (`\w`, `\s`, digits) are modelled over ASCII, which
  covers every string the agent itself constructs.
* String primitives (strip, upper, split, …) are re-implemented over
  `List Char` so that every definition evaluates by kernel reduction.
-/

/-- The single-quote character, `'`. -/
def chSQ : Char := Char.ofNat 39

/-- The double-quote character. -/
def chDQ : Char := Char.ofNat 34

/-- The single-quote character as a one-character string. -/
def sqStr : String := String.mk [chSQ]

/-- The double-quote character as a one-character string. -/
def dqStr : String := String.mk [chDQ]

/-- ASCII whitespace as recognized by Python `str.strip` and `\s`. -/
def pyWs (c : Char) : Bool :=
  c = ' ' || c = '\t' || c = '\n' || c = '\r' || c = Char.ofNat 11 || c = Char.ofNat 12

/-- Python `str.strip()` (ASCII whitespace model). -/
def pyStrip (s : String) : String :=
  String.mk (((s.toList.dropWhile pyWs).reverse.dropWhile pyWs).reverse)

/-- Python `str.upper()` (ASCII model). -/
def pyUpper (s : String) : String := String.mk (s.toList.map Char.toUpper)

/-- Python `str.lower()` (ASCII model). -/
def pyLower (s : String) : String := String.mk (s.toList.map Char.toLower)

/-- Python `str.startswith`. -/
def pyStartsWith (s pre : String) : Bool := pre.toList.isPrefixOf s.toList

/-- Python `str.endswith`. -/
def pyEndsWith (s suf : String) : Bool := suf.toList.reverse.isPrefixOf s.toList.reverse

/-- Python `s[1:-1]`: drop the first and last character. -/
def pyInner (s : String) : String := String.mk ((s.toList.drop 1).dropLast)

/-- Python `c in s` for a character. -/
def pyHasChar (s : String) (c : Char) : Bool := s.toList.contains c

/-- Python `sub in s` on strings: substring containment. -/
def pyIn (sub s : String) : Bool :=
  (List.range (s.toList.length + 1)).any (fun i => sub.toList.isPrefixOf (s.toList.drop i))

/-- Split a character list on a separator character (Python `str.split(sep)`:
adjacent separators yield empty groups). -/
def splitOnChar (c : Char) (cs : List Char) : List (List Char) :=
  cs.foldr
    (fun x acc =>
      match acc with
      | g :: gs => if x = c then [] :: g :: gs else (x :: g) :: gs
      | [] => [[x]])
    [[]]

/-- Python `sep.join(parts)`. -/
def joinSep (sep : String) : List String → String
  | [] => ""
  | [x] => x
  | x :: xs => x ++ sep ++ joinSep sep xs

/-- Python runtime values that flow through the agent pipeline. -/
inductive PyVal where
  | vNone
  | vStr (s : String)
  | vInt (n : Int)
  | vFloat (lit : String)
deriving Repr, DecidableEq

/-- Strip one leading `+` or `-` sign, as Python numeric constructors do. -/
def stripSign (s : String) : String :=
  if pyStartsWith s "+" || pyStartsWith s "-" then String.mk (s.toList.drop 1) else s

/-- A non-empty ASCII digit run with underscores allowed strictly between
digits, as accepted inside Python `int()`/`float()` literals. -/
def pyUDigits (s : String) : Bool :=
  s ≠ "" && (splitOnChar '_' s.toList).all (fun g => !g.isEmpty && g.all Char.isDigit)

/-- Strings accepted by Python `int(·)` (already stripped, ASCII model). -/
def pyIntLit (s : String) : Bool := pyUDigits (stripSign s)

/-- Numeric value of a string accepted by `pyIntLit`. -/
def pyIntVal (s : String) : Int :=
  let digs := (stripSign s).toList.filter Char.isDigit
  let n : Nat := digs.foldl (fun a c => a * 10 + (c.toNat - 48)) 0
  if pyStartsWith s "-" then -(n : Int) else (n : Int)

/-- Split a character list at the first character satisfying `p`,
dropping that character; `none` when no character satisfies `p`. -/
def breakAtFirst (cs : List Char) (p : Char → Bool) : Option (List Char × List Char) :=
  match cs.findIdx? p with
  | none => none
  | some i => some (cs.take i, cs.drop (i + 1))

/-- Mantissa part accepted by Python `float(·)`: digits, `digits.`,
`.digits`, or `digits.digits` (each run per `pyUDigits`). -/
def pyFloatMantissa (m : String) : Bool :=
  match breakAtFirst m.toList (· = '.') with
  | none => pyUDigits m
  | some (a, b) =>
    let as := String.mk a
    let bs := String.mk b
    !(b.contains '.') &&
    (as = "" || pyUDigits as) && (bs = "" || pyUDigits bs) && !(as = "" && bs = "")

/-- Strings accepted by Python `float(·)` (already stripped, ASCII model):
an optional sign, then `inf`/`infinity`/`nan` (case-insensitive) or a
mantissa with an optional exponent. -/
def pyFloatLit (s : String) : Bool :=
  let t := stripSign s
  if pyLower t = "inf" || pyLower t = "infinity" || pyLower t = "nan" then true
  else
    match breakAtFirst t.toList (fun c => c = 'e' || c = 'E') with
    | none => pyFloatMantissa t
    | some (m, e) => pyFloatMantissa (String.mk m) && pyUDigits (stripSign (String.mk e))

/-- `SQLAgent._parse_value`: strip the token; `NULL` (case-insensitive)
becomes `None`; a token surrounded by matching quotes is returned with
the outer quotes stripped (nothing else is rewritten); otherwise the
token is tried as `float` when it contains a dot and as `int` when it
does not, falling back to the raw string on a conversion failure. -/
def pyParseValue (value0 : String) : PyVal :=
  let v := pyStrip value0
  if pyUpper v = "NULL" then .vNone
  else if (pyStartsWith v sqStr && pyEndsWith v sqStr) || (pyStartsWith v dqStr && pyEndsWith v dqStr) then
    .vStr (pyInner v)
  else if pyHasChar v '.' then
    if pyFloatLit v then .vFloat v else .vStr v
  else
    if pyIntLit v then .vInt (pyIntVal v) else .vStr v

/-- Written from the (amended) specification wording for the value
parser: `NULL` token to null; matching-quoted token to the string with
the surrounding quotes stripped (escaped-quote sequences are NOT
collapsed); an unquoted numeric token to an integer when it has no
decimal point and to a float otherwise; anything else to the raw
string. -/
def parseValueSpec (tok : String) : PyVal :=
  let t := pyStrip tok
  let quoted := (pyStartsWith t sqStr && pyEndsWith t sqStr) || (pyStartsWith t dqStr && pyEndsWith t dqStr)
  let numeric := if pyHasChar t '.' then pyFloatLit t else pyIntLit t
  if pyUpper t = "NULL" then .vNone
  else if quoted then .vStr (pyInner t)
  else if numeric then
    if pyHasChar t '.' then .vFloat t else .vInt (pyIntVal t)
  else .vStr t

/-- `SQLAgent.normalize_table_name`: lower-case and strip the name, then
resolve through the alias table, the schema table list, or a substring
match against a schema table, falling back to the raw input. The alias
table and schema tables are runtime data (configuration, database
introspection and lazy LLM analysis), so they are parameters here. -/
def normalize_table_name (aliases : List (String × String)) (tables : List String)
    (table_name : String) : String :=
  if table_name = "" then ""
  else
    let tl := pyStrip (pyLower table_name)
    match aliases.lookup tl with
    | some t => t
    | none =>
      if tables.contains tl then tl
      else
        match tables.find? (fun vt => pyIn tl vt || pyIn vt tl) with
        | some vt => vt
        | none => table_name

/-- Python `v.replace(chr(39), chr(39)+chr(39))`: double every single
quote (the escaping used by `generate_final_sql`). -/
def escapeSQ (s : String) : String :=
  String.mk (s.toList.foldr (fun c acc => if c = chSQ then chSQ :: chSQ :: acc else c :: acc) [])

/-- Rendering of one value inside `generate_final_sql`: strings are
single-quoted with internal quotes doubled, `None` becomes `NULL`, and
every other value is stringified as-is (a float keeps its literal
text, abstracting Python float formatting). -/
def sqlLit : PyVal → String
  | .vStr s => sqStr ++ escapeSQ s ++ sqStr
  | .vNone => "NULL"
  | .vInt n => toString n
  | .vFloat lit => lit

/-- Python truthiness of the optional `where_clause` argument:
`None` and the empty string are falsy. -/
def whereFalsy : Option String → Bool
  | none => true
  | some w => w = ""

/-- `SQLAgent.generate_final_sql`: builds the final SQL text; UPDATE and
DELETE raise (here: return `Except.error`) when `where_clause` is falsy,
SELECT substitutes the default predicate `1=1`; the trailing
`except ... raise` in the source re-raises unchanged, so errors simply
propagate. -/
def generate_final_sql (aliases : List (String × String)) (tables : List String)
    (data : List (String × PyVal)) (table : String) (query_type : String)
    (where_clause : Option String) : Except String String :=
  let tbl := normalize_table_name aliases tables table
  let qt := pyLower query_type
  if qt = "insert" then
    let columns := joinSep ", " (data.map (fun kv => kv.1))
    let values := joinSep ", " (data.map (fun kv => sqlLit kv.2))
    .ok ("INSERT INTO " ++ tbl ++ " (" ++ columns ++ ") VALUES (" ++ values ++ ");")
  else if qt = "update" then
    let set_clause := joinSep ", " (data.map (fun kv => kv.1 ++ " = " ++ sqlLit kv.2))
    if whereFalsy where_clause then
      .error "WHERE clause required for safe UPDATE operation"
    else
      .ok ("UPDATE " ++ tbl ++ " SET " ++ set_clause ++ " WHERE " ++ where_clause.getD "" ++ ";")
  else if qt = "select" then
    let wc := match where_clause with
      | none => "1=1"
      | some w => if w = "" then "1=1" else w
    .ok ("SELECT * FROM " ++ tbl ++ " WHERE " ++ wc ++ ";")
  else if qt = "delete" then
    if whereFalsy where_clause then
      .error "WHERE clause required for safe DELETE operation"
    else
      .ok ("DELETE FROM " ++ tbl ++ " WHERE " ++ where_clause.getD "" ++ ";")
  else
    .error ("Unsupported query type: " ++ query_type)

/-- One field entry of `field_config.json` for a model: its name and its
`required` flag (`field_config.get("required", False)`); the JSON object
order is the declaration order, preserved by `json.load` into the dict
iterated by `get_required_fields`. -/
structure FieldCfg where
  name : String
  required : Bool
deriving Repr, DecidableEq

/-- A model's field configuration: the ordered field list. -/
structure ModelCfg where
  fields : List FieldCfg
deriving Repr, DecidableEq

/-- `ConfigManager.get_required_fields`: iterate the model's fields in
declaration order and collect the names whose `required` flag is set. -/
def get_required_fields (cfg : ModelCfg) : List String :=
  cfg.fields.foldl (fun acc fc => if fc.required then acc ++ [fc.name] else acc) []

/-- A pydantic v2 validation error record: field location, error type
tag, and message. -/
structure PydErr where
  loc : String
  etype : String
  msg : String
deriving Repr, DecidableEq

/-- The error types that `validate_fields` treats as absence-of-value on
a null-ish field (the literal list in the source). -/
def magicTypes : List String := ["string_type", "float_type", "int_type", "missing"]

/-- Numeric value of a digit run. -/
def digitsVal (g : List Char) : Nat := g.foldl (fun a c => a * 10 + (c.toNat - 48)) 0

/-- A non-empty all-digit character run. -/
def allDigits (g : List Char) : Bool := !g.isEmpty && g.all Char.isDigit

/-- Gregorian leap year (as in Python `datetime`). -/
def isLeapYear (y : Nat) : Bool := (y % 4 = 0 && y % 100 ≠ 0) || y % 400 = 0

/-- Days in a month (as in Python `datetime`). -/
def daysInMonth (y m : Nat) : Nat :=
  if m = 2 then (if isLeapYear y then 29 else 28)
  else if m = 4 || m = 6 || m = 9 || m = 11 then 30
  else 31

/-- `datetime.strptime(s, Y-m-d)` succeeds: a 4-digit year (at least
0001), a 1-2 digit month 1..12, a 1-2 digit day valid for that month,
nothing else in the string. -/
def strptimeYmdOk (s : String) : Bool :=
  match splitOnChar '-' s.toList with
  | [ys, ms, ds] =>
    ys.length = 4 && allDigits ys && ms.length ≤ 2 && allDigits ms &&
    ds.length ≤ 2 && allDigits ds &&
    (let y := digitsVal ys
     let m := digitsVal ms
     let d := digitsVal ds
     1 ≤ y && 1 ≤ m && m ≤ 12 && 1 ≤ d && d ≤ daysInMonth y m)
  | _ => false

/-- The mantissa (part before any exponent) of a numeric literal text. -/
def mantissaOf (t : String) : String :=
  match breakAtFirst t.toList (fun c => c = 'e' || c = 'E') with
  | none => t
  | some (m, _) => String.mk m

/-- Sign model for a numeric literal text: whether the denoted value
satisfies `value >= 0` (`nan` compares false; `-0`-forms are not
negative). Used for the pydantic `ge=0` constraint on text-carried
numbers. -/
def floatTextGeZero (lit : String) : Bool :=
  let t := pyStrip lit
  let core := pyLower (stripSign t)
  if core = "nan" then false
  else if core = "inf" || core = "infinity" then !(pyStartsWith t "-")
  else if pyStartsWith t "-" then
    !((mantissaOf t).toList.any (fun c => c.isDigit && c ≠ '0'))
  else true

/-- pydantic v2 lax coercion of a string to an int: stripped sign +
digits (no underscores). -/
def pydIntStr (s : String) : Bool :=
  allDigits (stripSign (pyStrip s)).toList

/-- pydantic v2 lax coercion of a string to a float: a Python float
literal without underscores. -/
def pydFloatStr (s : String) : Bool :=
  let t := pyStrip s
  pyFloatLit t && !(pyHasChar t '_')

/-- Errors pydantic reports for the optional `id : Optional[int]` field:
absent or `None` is fine; an unparsable string is `int_parsing`; a
float is accepted only when its text denotes an integer (coercion
model — this field is unreachable in the pipeline since the extractor
drops `id`). -/
def idFieldErr (vals : List (String × PyVal)) : List PydErr :=
  match vals.lookup "id" with
  | none => []
  | some .vNone => []
  | some (.vInt _) => []
  | some (.vStr s) =>
    if pydIntStr s then []
    else [⟨"id", "int_parsing", "Input should be a valid integer, unable to parse string as an integer"⟩]
  | some (.vFloat lit) =>
    if allDigits (stripSign lit).toList then []
    else [⟨"id", "int_from_float", "Input should be a valid integer, got a number with a fractional part"⟩]

/-- Errors pydantic reports for a required `str` field with
`min_length=1`, a maximum length, and a strip-and-require-non-empty
custom validator (the `name` and `department` fields). -/
def requiredStrFieldErr (fname : String) (maxLen : Nat) (vmsg : String)
    (vals : List (String × PyVal)) : List PydErr :=
  match vals.lookup fname with
  | none => [⟨fname, "missing", "Field required"⟩]
  | some (.vStr s) =>
    if s.toList.length < 1 then
      [⟨fname, "string_too_short", "String should have at least 1 character"⟩]
    else if s.toList.length > maxLen then
      [⟨fname, "string_too_long", "String is too long"⟩]
    else if pyStrip s = "" then [⟨fname, "value_error", "Value error, " ++ vmsg⟩]
    else []
  | some _ => [⟨fname, "string_type", "Input should be a valid string"⟩]

/-- Errors pydantic reports for an optional `str` field with a maximum
length (`description`, project `department`). -/
def optionalStrFieldErr (fname : String) (maxLen : Nat)
    (vals : List (String × PyVal)) : List PydErr :=
  match vals.lookup fname with
  | none => []
  | some .vNone => []
  | some (.vStr s) =>
    if s.toList.length > maxLen then
      [⟨fname, "string_too_long", "String is too long"⟩]
    else []
  | some _ => [⟨fname, "string_type", "Input should be a valid string"⟩]

/-- Errors pydantic reports for an optional `str` date field with the
strptime-format custom validator (`hire_date`, `start_date`,
`end_date`): a non-string is `string_type`; a present non-blank string
failing `strptime(v, Y-m-d)` raises the validator's `ValueError`. -/
def optionalDateFieldErr (fname : String) (vmsg : String)
    (vals : List (String × PyVal)) : List PydErr :=
  match vals.lookup fname with
  | none => []
  | some .vNone => []
  | some (.vStr s) =>
    if pyStrip s = "" then []
    else if strptimeYmdOk s then []
    else [⟨fname, "value_error", "Value error, " ++ vmsg⟩]
  | some _ => [⟨fname, "string_type", "Input should be a valid string"⟩]

/-- Errors pydantic reports for a `float` field with `ge=0` (`salary`
required, `budget` optional): `None` on the required field is
`float_type`; an unparsable string is `float_parsing`; a parsed or
numeric value must be `>= 0`. -/
def numGeZeroFieldErr (fname : String) (required : Bool)
    (vals : List (String × PyVal)) : List PydErr :=
  let geErr : PydErr := ⟨fname, "greater_than_equal", "Input should be greater than or equal to 0"⟩
  match vals.lookup fname with
  | none => if required then [⟨fname, "missing", "Field required"⟩] else []
  | some .vNone => if required then [⟨fname, "float_type", "Input should be a valid number"⟩] else []
  | some (.vInt n) => if n < 0 then [geErr] else []
  | some (.vFloat lit) => if floatTextGeZero lit then [] else [geErr]
  | some (.vStr s) =>
    if pydFloatStr s then (if floatTextGeZero s then [] else [geErr])
    else [⟨fname, "float_parsing", "Input should be a valid number, unable to parse string as a number"⟩]

/-- The two pydantic models the agent maps tables to
(`SQLAgent._build_model_map` over the employee/project schemas). -/
inductive PydModel where
  | employee
  | project
deriving Repr, DecidableEq

/-- Validation errors of the `Employee` model, in field declaration
order: `id`, `name`, `department`, `salary`, `hire_date`. -/
def employeeErrors (vals : List (String × PyVal)) : List PydErr :=
  idFieldErr vals ++
  requiredStrFieldErr "name" 100 "name is required and cannot be empty" vals ++
  requiredStrFieldErr "department" 50 "department is required and cannot be empty" vals ++
  numGeZeroFieldErr "salary" true vals ++
  optionalDateFieldErr "hire_date" "hire_date must be in YYYY-MM-DD format" vals

/-- Validation errors of the `Project` model, in field declaration
order: `id`, `name`, `description`, `start_date`, `end_date`, `budget`,
`department`. -/
def projectErrors (vals : List (String × PyVal)) : List PydErr :=
  idFieldErr vals ++
  requiredStrFieldErr "name" 100 "name is required and cannot be empty" vals ++
  optionalStrFieldErr "description" 500 vals ++
  optionalDateFieldErr "start_date" "Date must be in YYYY-MM-DD format" vals ++
  optionalDateFieldErr "end_date" "Date must be in YYYY-MM-DD format" vals ++
  numGeZeroFieldErr "budget" false vals ++
  optionalStrFieldErr "department" 50 vals

/-- Errors reported by `model(**values)` for either model. -/
def modelErrors : PydModel → List (String × PyVal) → List PydErr
  | .employee, vals => employeeErrors vals
  | .project, vals => projectErrors vals

/-- The required fields of each model, in declaration order. -/
def modelRequired : PydModel → List String
  | .employee => ["name", "department", "salary"]
  | .project => ["name"]

/-- `SQLAgent.model_map` for the standard employee/project schemas. -/
def model_map : List (String × PydModel) :=
  [("employee", PydModel.employee), ("project", PydModel.project)]

/-- The null-sentinel test in the `validate_fields` loop:
`field_value is None or (isinstance(field_value, str) and
field_value.upper() == NULL)`. -/
def isNullish : PyVal → Bool
  | .vNone => true
  | .vStr s => pyUpper s = "NULL"
  | _ => false

/-- One iteration of the error-classification loop in
`SQLAgent.validate_fields`: a field present with a null-ish value and a
type-level error counts as missing (deduplicated); a field absent from
the map counts as missing; everything else is appended to the
validation-error strings. -/
def classifyStep (vals : List (String × PyVal)) (acc : List String × List String)
    (e : PydErr) : List String × List String :=
  match vals.lookup e.loc with
  | some fv =>
    if isNullish fv then
      if magicTypes.contains e.etype then
        if acc.1.contains e.loc then acc else (acc.1 ++ [e.loc], acc.2)
      else (acc.1, acc.2 ++ [e.loc ++ ": " ++ e.msg])
    else (acc.1, acc.2 ++ [e.loc ++ ": " ++ e.msg])
  | none => (acc.1 ++ [e.loc], acc.2)

/-- Result triple of `SQLAgent.validate_fields`:
`(missing_fields, instance, validation_errors)`; the instance is kept
abstractly as a success flag because no caller reads its contents. -/
structure ValidateResult where
  missingFields : List String
  instanceOk : Bool
  errors : List String
deriving Repr, DecidableEq

/-- `SQLAgent.validate_fields`: construct the model; on success return
no missing fields and no errors; on a validation failure classify each
error through the loop. -/
def validate_fields (vals : List (String × PyVal)) (m : PydModel) : ValidateResult :=
  let errs := modelErrors m vals
  if errs.isEmpty then ⟨[], true, []⟩
  else
    let acc := errs.foldl (classifyStep vals) ([], [])
    ⟨acc.1, false, acc.2⟩

/-- Whether the classification loop counts an error as a missing field:
the field is absent from the map, or its value is null-ish and the
error type is one of the absence-of-value types. -/
def missClassB (vals : List (String × PyVal)) (e : PydErr) : Bool :=
  match vals.lookup e.loc with
  | none => true
  | some fv => isNullish fv && magicTypes.contains e.etype

/-- A `\w` word character (ASCII model). -/
def isWordChar (c : Char) : Bool := c.isAlphanum || c = '_'

/-- `re.search` position scan: try the matcher at every suffix, taking
the first success. -/
def scanFirst {α : Type} : List Char → (List Char → Option α) → Option α
  | [], m => m []
  | c :: rest, m =>
    match m (c :: rest) with
    | some r => some r
    | none => scanFirst rest m

/-- Match a keyword case-insensitively at the head, returning the rest. -/
def matchKeywordCI (kw : String) (cs : List Char) : Option (List Char) :=
  let k := kw.toList
  if (cs.take k.length).map Char.toLower = k.map Char.toLower then
    some (cs.drop k.length)
  else none

/-- Match `\s+` at the head. -/
def matchWs1 (cs : List Char) : Option (List Char) :=
  let rest := cs.dropWhile pyWs
  if rest.length < cs.length then some rest else none

/-- Match `(\w+)` at the head, returning the captured word and rest. -/
def takeWord (cs : List Char) : Option (String × List Char) :=
  let w := cs.takeWhile isWordChar
  if w.isEmpty then none else some (String.mk w, cs.drop w.length)

/-- Matcher for the pattern `INSERT\s+INTO\s+["']?(\w+)` at one
position (capturing the table name; the optional trailing quote does
not affect the captured group). -/
def matchInsertTable (cs : List Char) : Option String := do
  let r1 ← matchKeywordCI "INSERT" cs
  let r2 ← matchWs1 r1
  let r3 ← matchKeywordCI "INTO" r2
  let r4 ← matchWs1 r3
  let r5 := match r4 with
    | c :: rest => if c = chSQ || c = chDQ then rest else r4
    | [] => r4
  let (w, _) ← takeWord r5
  pure w

/-- Matcher for `\(([^)]+)\)\s+VALUES` at one position (capturing the
column list between the parentheses). -/
def matchColsAt (cs : List Char) : Option String :=
  match cs with
  | c :: rest =>
    if c = '(' then
      let content := rest.takeWhile (· ≠ ')')
      if content.isEmpty then none
      else
        match rest.drop content.length with
        | c2 :: rest2 =>
          if c2 = ')' then
            match matchWs1 rest2 with
            | some r3 => (matchKeywordCI "VALUES" r3).map (fun _ => String.mk content)
            | none => none
          else none
        | [] => none
    else none
  | [] => none

/-- Matcher for `VALUES\s*\(([^)]+)\)` at one position (capturing the
value list between the parentheses). -/
def matchValsAt (cs : List Char) : Option String := do
  let r1 ← matchKeywordCI "VALUES" cs
  let r2 := r1.dropWhile pyWs
  match r2 with
  | c :: rest =>
    if c = '(' then
      let content := rest.takeWhile (· ≠ ')')
      if content.isEmpty then none
      else
        match rest.drop content.length with
        | c2 :: _ => if c2 = ')' then some (String.mk content) else none
        | [] => none
    else none
  | [] => none

/-- Matcher for `UPDATE\s+(\w+)` at one position. -/
def matchUpdateTable (cs : List Char) : Option String := do
  let r1 ← matchKeywordCI "UPDATE" cs
  let r2 ← matchWs1 r1
  let (w, _) ← takeWord r2
  pure w

/-- Whether `\s+WHERE` (case-insensitive) matches at the head. -/
def wsWhereAt (cs : List Char) : Bool :=
  match matchWs1 cs with
  | some r => (matchKeywordCI "WHERE" r).isSome
  | none => false

/-- The lazy group of `SET\s+(.+?)(?:\s+WHERE|$)` (with DOTALL): the
shortest non-empty prefix followed by `\s+WHERE`, or the whole rest
when no such boundary exists. -/
def findSetContent (cs : List Char) : Option String :=
  if cs.isEmpty then none
  else
    match ((List.range cs.length).filter (fun k => 1 ≤ k && wsWhereAt (cs.drop k))) with
    | k :: _ => some (String.mk (cs.take k))
    | [] => some (String.mk cs)

/-- Matcher for `SET\s+(.+?)(?:\s+WHERE|$)` at one position. -/
def matchSetAt (cs : List Char) : Option String := do
  let r1 ← matchKeywordCI "SET" cs
  let r2 ← matchWs1 r1
  findSetContent r2

/-- Python dict assignment `d[k] = v`: update in place when the key
exists, append otherwise. -/
def pyDictInsert (d : List (String × PyVal)) (k : String) (v : PyVal) :
    List (String × PyVal) :=
  if d.any (fun kv => kv.1 = k) then
    d.map (fun kv => if kv.1 = k then (k, v) else kv)
  else d ++ [(k, v)]

/-- Column-list parsing in the INSERT branch: split on commas, strip,
and remove surrounding double or single quotes. -/
def parseCols (s : String) : List String :=
  (splitOnChar ',' s.toList).map (fun g =>
    let col := pyStrip (String.mk g)
    if pyStartsWith col dqStr && pyEndsWith col dqStr then pyInner col
    else if pyStartsWith col sqStr && pyEndsWith col sqStr then pyInner col
    else col)

/-- State of the quoting/nesting-aware value splitter. -/
structure ValSplitSt where
  vals : List PyVal
  current : List Char
  in_quotes : Bool
  quote_char : Option Char
  paren : Int
deriving Repr, DecidableEq

/-- One character step of the INSERT value splitter (the quote and
parenthesis characters are also appended to the current token, as in
the source loop). -/
def valSplitStep (st : ValSplitSt) (ch : Char) : ValSplitSt :=
  if (ch = chSQ || ch = chDQ) && !st.in_quotes then
    { st with in_quotes := true, quote_char := some ch, current := st.current ++ [ch] }
  else if some ch = st.quote_char && st.in_quotes then
    { st with in_quotes := false, quote_char := none, current := st.current ++ [ch] }
  else if ch = '(' && !st.in_quotes then
    { st with paren := st.paren + 1, current := st.current ++ [ch] }
  else if ch = ')' && !st.in_quotes then
    { st with paren := st.paren - 1, current := st.current ++ [ch] }
  else if ch = ',' && !st.in_quotes && st.paren = 0 then
    { st with
      vals := st.vals ++ [pyParseValue (pyStrip (String.mk st.current))]
      current := [] }
  else { st with current := st.current ++ [ch] }

/-- The INSERT value splitter: fold the step over the value-list text
and append the final token when non-blank. -/
def splitValues (s : String) : List PyVal :=
  let st := s.toList.foldl valSplitStep ⟨[], [], false, none, 0⟩
  if pyStrip (String.mk st.current) = "" then st.vals
  else st.vals ++ [pyParseValue (pyStrip (String.mk st.current))]

/-- State of the SET-clause assignment splitter. -/
structure AsgSplitSt where
  asgs : List String
  current : List Char
  in_quotes : Bool
  quote_char : Option Char
deriving Repr, DecidableEq

/-- One character step of the SET-clause assignment splitter. -/
def asgSplitStep (st : AsgSplitSt) (ch : Char) : AsgSplitSt :=
  if (ch = chSQ || ch = chDQ) && !st.in_quotes then
    { st with in_quotes := true, quote_char := some ch, current := st.current ++ [ch] }
  else if some ch = st.quote_char && st.in_quotes then
    { st with in_quotes := false, quote_char := none, current := st.current ++ [ch] }
  else if ch = ',' && !st.in_quotes then
    { st with asgs := st.asgs ++ [pyStrip (String.mk st.current)], current := [] }
  else { st with current := st.current ++ [ch] }

/-- The SET-clause assignment splitter. -/
def splitAssignments (s : String) : List String :=
  let st := s.toList.foldl asgSplitStep ⟨[], [], false, none⟩
  if pyStrip (String.mk st.current) = "" then st.asgs
  else st.asgs ++ [pyStrip (String.mk st.current)]

/-- INSERT data construction: zip columns and values positionally and
drop the `id` column (case-insensitive). -/
def buildInsertData (pairs : List (String × PyVal)) : List (String × PyVal) :=
  pairs.foldl
    (fun d kv => if pyLower kv.1 = "id" then d else pyDictInsert d kv.1 kv.2) []

/-- UPDATE data construction: for each assignment containing `=`, split
once at the first `=`, strip the key, parse the value, and drop `id`
assignments (case-insensitive). -/
def buildUpdateData (asgs : List String) : List (String × PyVal) :=
  asgs.foldl
    (fun d a =>
      match breakAtFirst a.toList (· = '=') with
      | none => d
      | some (k, v) =>
        let key := pyStrip (String.mk k)
        let value := pyParseValue (pyStrip (String.mk v))
        if pyLower key = "id" then d else pyDictInsert d key value)
    []

/-- `SQLAgent.parse_insert_or_update_query`: recognize an INSERT (table,
column list, value list) or, failing that, an UPDATE (table, SET
clause); the trailing `return None` covers every other shape. The
duplicate-check helper in the caller always returns `None` in the
source, so it does not appear here. -/
def parseUpdatePart (aliases : List (String × String)) (tables : List String)
    (query : String) : Option (String × String × List (String × PyVal)) :=
  match scanFirst query.toList matchUpdateTable with
  | none => none
  | some rawTable =>
    match scanFirst query.toList matchSetAt with
    | none => none
    | some setClause =>
      some (normalize_table_name aliases tables rawTable, "update",
        buildUpdateData (splitAssignments setClause))

/-- The INSERT recognizer of `parse_insert_or_update_query`; when its
column/value lists are not both found, control falls through to the
UPDATE recognizer (`parseUpdatePart`). -/
def parse_insert_or_update_query (aliases : List (String × String)) (tables : List String)
    (query0 : String) : Option (String × String × List (String × PyVal)) :=
  let query := pyStrip query0
  match scanFirst query.toList matchInsertTable with
  | some rawTable =>
    match scanFirst query.toList matchColsAt, scanFirst query.toList matchValsAt with
    | some colsStr, some valsStr =>
      some (normalize_table_name aliases tables rawTable, "insert",
        buildInsertData ((parseCols colsStr).zip (splitValues valsStr)))
    | _, _ => parseUpdatePart aliases tables query
  | none => parseUpdatePart aliases tables query

/-- The langgraph `State` of the chat system, flattened: exactly the
channels the `State` TypedDict declares (only the last message content
is kept, since each node reads `messages[-1].content`); Python
`None`/absent string, list and dict entries are modelled by `""`/`[]`
(both are falsy exactly like their Python counterparts). The keys
`is_field_value_response`, `waiting_for_input`, `missing_field` and
`message` that some nodes return are NOT channels of the TypedDict:
langgraph drops writes to undeclared keys, so they are not state
fields here, and reads of them always yield the `state.get` default
(see `is_field_value_response_read` and friends). -/
structure ChatState where
  lastMessage : String
  user_intent : String
  table : String
  query_type : String
  partial_values : List (String × PyVal)
  missing_fields : List String
  generated_query : String
  final_query : String
  execution_result : String
  summary : String
  validation_errors : List String
  operation_count : Nat
deriving Repr, DecidableEq

/-- The empty initial state of a thread. -/
def initialChatState : ChatState :=
  ⟨"", "", "", "", [], [], "", "", "", "", [], 0⟩

/-- `state.get("is_field_value_response", False)` in
`_route_after_intent`: `is_field_value_response` is not a channel of
the `State` TypedDict, so every node write to it is dropped and the
key is never present — the read always yields the default `False`. -/
def is_field_value_response_read (_ : ChatState) : Bool := false

/-- `state.get("waiting_for_input")` in `analyze_intent_node`: not a
TypedDict channel, so the key is never present and the read is always
`None` (falsy). -/
def waiting_for_input_read (_ : ChatState) : Bool := false

/-- `state.get("missing_field")` in `analyze_intent_node`: not a
TypedDict channel, so the read is always `None` (falsy, modelled as
the empty string). -/
def missing_field_read (_ : ChatState) : String := ""

/-- Output dict of `Chat.parse_and_validate_node`: either only
`validation_errors` (parse failure / unknown model) or the full
five-key update. -/
inductive PVOut where
  | errsOnly (errs : List String)
  | full (table : String) (qtype : String) (vals : List (String × PyVal))
      (missing : List String) (errs : List String)
deriving Repr, DecidableEq

/-- `Chat.parse_and_validate_node`: extract the query, look up the
model for the lower-cased table, and validate; the duplicate check in
the source always returns `None`, so it never contributes an error. -/
def parse_and_validate_node (aliases : List (String × String)) (tables : List String)
    (s : ChatState) : PVOut :=
  match parse_insert_or_update_query aliases tables s.generated_query with
  | none => .errsOnly ["Unable to parse the query properly"]
  | some (table, query_type, values) =>
    match model_map.lookup (pyLower table) with
    | none => .errsOnly ["No model found for table: " ++ table]
    | some model =>
      let r := validate_fields values model
      .full table query_type values r.missingFields r.errors

/-- Merge of a `parse_and_validate_node` output into the thread state
(langgraph replaces exactly the returned keys). -/
def mergePV (s : ChatState) : PVOut → ChatState
  | .errsOnly errs => { s with validation_errors := errs }
  | .full t qt vals miss errs =>
    { s with
      table := t
      query_type := qt
      partial_values := vals
      missing_fields := miss
      validation_errors := errs }

/-- Output dict of `Chat.update_context_with_user_input_node`: the
state unchanged (no missing fields), only `partial_values` (unknown
model), or the full re-validated update. -/
inductive UCOut where
  | unchanged
  | pvOnly (vals : List (String × PyVal))
  | full (vals : List (String × PyVal)) (missing : List String) (errs : List String)
deriving Repr, DecidableEq

/-- `Chat.update_context_with_user_input_node`: store the stripped user
reply under the first missing field and re-validate with the model
looked up by the stored table name (no lower-casing here, unlike
`parse_and_validate_node`). -/
def update_context_with_user_input_node (s : ChatState) : UCOut :=
  let user_response := pyStrip s.lastMessage
  match s.missing_fields with
  | [] => .unchanged
  | field_name :: _ =>
    let updated := pyDictInsert s.partial_values field_name (.vStr user_response)
    match model_map.lookup s.table with
    | some model =>
      let r := validate_fields updated model
      .full updated r.missingFields r.errors
    | none => .pvOnly updated

/-- Merge of an `update_context_with_user_input_node` output. -/
def mergeUC (s : ChatState) : UCOut → ChatState
  | .unchanged => s
  | .pvOnly vals => { s with partial_values := vals }
  | .full vals miss errs =>
    { s with
      partial_values := vals
      missing_fields := miss
      validation_errors := errs }

/-- The return site of `Chat.analyze_intent_node` that produced the
output dict (bookkeeping for the routing proofs; not part of the
Python dict). -/
inductive IntentBranch where
  | pendingCtx
  | waitingFlag
  | shortMsg
  | newQuery
deriving Repr, DecidableEq

/-- Output dict of `Chat.analyze_intent_node`; `none` marks keys the
branch does not return (so the merge keeps the stored value). -/
structure AIOut where
  branch : IntentBranch
  user_intent : String
  generated_query : String
  query_type : String
  table : String
  partial_values : Option (List (String × PyVal))
  missing_fields : Option (List String)
  missing_field : Option String
  operation_count : Nat
  is_field_value_response : Bool
deriving Repr, DecidableEq

/-- The keyword list of the short-message heuristic. -/
def intentKeywords : List String :=
  ["show", "select", "insert", "add", "create", "update", "delete", "find", "get", "list"]

/-- Python `len(s.split())`: the number of maximal non-whitespace runs. -/
def pyWordCount (s : String) : Nat :=
  ((s.toList.foldr
    (fun c acc =>
      if pyWs c then [] :: acc
      else
        match acc with
        | g :: gs => (c :: g) :: gs
        | [] => [[c]])
    []).filter (fun g => !g.isEmpty)).length

/-- `Chat.analyze_intent_node`. The external synthesis step
(`generate_query` followed by `parse_query_intent`) only runs in the
new-query branch and is an oracle `gen` returning the generated query
text and the parsed (operation, table) pair. -/
def analyze_intent_node (gen : String → String × String × String) (s : ChatState) : AIOut :=
  let user_message := s.lastMessage
  if !s.missing_fields.isEmpty && s.table ≠ "" && s.query_type ≠ "" &&
      !s.partial_values.isEmpty then
    { branch := .pendingCtx
      user_intent := user_message
      generated_query := s.generated_query
      query_type := s.query_type
      table := s.table
      partial_values := some s.partial_values
      missing_fields := some s.missing_fields
      missing_field := none
      operation_count := s.operation_count + 1
      is_field_value_response := true }
  else if waiting_for_input_read s && missing_field_read s ≠ "" then
    { branch := .waitingFlag
      user_intent := user_message
      generated_query := s.generated_query
      query_type := s.query_type
      table := s.table
      partial_values := some s.partial_values
      missing_fields := some s.missing_fields
      missing_field := some (missing_field_read s)
      operation_count := s.operation_count + 1
      is_field_value_response := true }
  else
    let user_message_clean := pyStrip user_message
    if pyWordCount user_message_clean ≤ 3 &&
        !(intentKeywords.any (fun kw => pyIn kw (pyLower user_message_clean))) &&
        s.table ≠ "" && s.query_type ≠ "" then
      { branch := .shortMsg
        user_intent := user_message
        generated_query := s.generated_query
        query_type := s.query_type
        table := s.table
        partial_values := some s.partial_values
        missing_fields := some s.missing_fields
        missing_field := none
        operation_count := s.operation_count + 1
        is_field_value_response := true }
    else
      let g := gen user_message
      { branch := .newQuery
        user_intent := user_message
        generated_query := g.1
        query_type := g.2.1
        table := g.2.2
        partial_values := none
        missing_fields := none
        missing_field := none
        operation_count := s.operation_count + 1
        is_field_value_response := false }

/-- Merge of an `analyze_intent_node` output: langgraph writes only
the declared channels, so the dict's `is_field_value_response` and
`missing_field` entries are silently dropped. -/
def mergeAI (s : ChatState) (o : AIOut) : ChatState :=
  { s with
    user_intent := o.user_intent
    generated_query := o.generated_query
    query_type := o.query_type
    table := o.table
    partial_values := o.partial_values.getD s.partial_values
    missing_fields := o.missing_fields.getD s.missing_fields
    operation_count := o.operation_count }

/-- `Chat._route_after_intent`: the first test reads
`state.get("is_field_value_response", False)`, which is always the
default `False` because the key is not a TypedDict channel. -/
def route_after_intent (s : ChatState) : String :=
  if is_field_value_response_read s then "update_context"
  else if s.query_type = "insert" ∨ s.query_type = "update" then "parse_validate"
  else "direct_execute"

/-- `Chat._route_after_validation`. -/
def route_after_validation (s : ChatState) : String :=
  if s.validation_errors ≠ [] ∧ s.missing_fields = [] then "validation_error"
  else if s.missing_fields ≠ [] then "has_missing"
  else "no_missing"

/-- `Chat._get_field_description`: the hard-coded description table
with its generic fallback. -/
def get_field_description (table field : String) : String :=
  let employeeDescs : List (String × String) :=
    [("name", "Full name of the employee"),
     ("department", "Department name (e.g., Engineering, Sales, HR)"),
     ("salary", "Annual salary amount (numbers only)"),
     ("hire_date", "Hire date in YYYY-MM-DD format")]
  let projectDescs : List (String × String) :=
    [("name", "Project name"),
     ("description", "Brief project description"),
     ("start_date", "Start date in YYYY-MM-DD format"),
     ("end_date", "End date in YYYY-MM-DD format"),
     ("budget", "Project budget amount (numbers only)"),
     ("department", "Department responsible for the project")]
  let descs := if table = "employee" then employeeDescs
    else if table = "project" then projectDescs else []
  (descs.lookup field).getD ("Value for " ++ field)

/-- `Chat.ask_for_missing_field_node`, merged into the state: asks for
the head of `missing_fields`. Of the returned dict only
`execution_result` and `summary` are TypedDict channels; the
`message`, `waiting_for_input` and `missing_field` entries are dropped
by langgraph. -/
def ask_for_missing_field_node (s : ChatState) : ChatState :=
  match s.missing_fields with
  | [] =>
    { s with
      execution_result := "All required fields have been provided."
      summary := "All required fields have been provided." }
  | next :: _ =>
    let message := "Please provide a value for " ++ sqStr ++ next ++ sqStr ++ ": " ++
      get_field_description s.table next
    { s with
      execution_result := message
      summary := "Waiting for required field: " ++ next }

/-- `Chat.generate_and_execute_final_query_node`, merged into the
state, together with the list of SQL texts passed to `execute_query`
(so that "nothing was executed" is a provable statement). The executor
is the oracle `execQ`; `update_conversation_context` only mutates the
in-process context aggregate and touches neither the state nor the
database, so it does not appear. -/
def generate_and_execute_final_query_node (aliases : List (String × String))
    (tables : List String) (execQ : String → String) (s : ChatState) :
    ChatState × List String :=
  let qt := if s.query_type = "" then "select" else s.query_type
  if pyLower qt = "insert" ∨ pyLower qt = "update" then
    if s.table = "" ∨ s.partial_values = [] then
      ({ s with execution_result := "Missing required data for query execution" }, [])
    else
      match generate_final_sql aliases tables s.partial_values s.table qt none with
      | .error e =>
        ({ s with execution_result := "Query execution failed: " ++ e }, [])
      | .ok final_query =>
        ({ s with
            final_query := final_query
            execution_result := execQ final_query }, [final_query])
  else
    let final_query := s.generated_query
    ({ s with
        final_query := final_query
        execution_result := execQ final_query }, [final_query])

/-- States of one conversation thread reachable by the compiled graph:
the initial state, a new incoming user message, and the merge of each
node's output, with the synthesis and execution collaborators
arbitrary at every step. -/
inductive ReachableChatState (aliases : List (String × String)) (tables : List String) :
    ChatState → Prop where
  | init : ReachableChatState aliases tables initialChatState
  | userMessage (msg : String) {s : ChatState} :
      ReachableChatState aliases tables s →
      ReachableChatState aliases tables { s with lastMessage := msg }
  | analyzeIntent (gen : String → String × String × String) {s : ChatState} :
      ReachableChatState aliases tables s →
      ReachableChatState aliases tables (mergeAI s (analyze_intent_node gen s))
  | parseValidate {s : ChatState} :
      ReachableChatState aliases tables s →
      ReachableChatState aliases tables (mergePV s (parse_and_validate_node aliases tables s))
  | askMissingField {s : ChatState} :
      ReachableChatState aliases tables s →
      ReachableChatState aliases tables (ask_for_missing_field_node s)
  | updateContext {s : ChatState} :
      ReachableChatState aliases tables s →
      ReachableChatState aliases tables (mergeUC s (update_context_with_user_input_node s))
  | generateAndExecute (execQ : String → String) {s : ChatState} :
      ReachableChatState aliases tables s →
      ReachableChatState aliases tables
        (generate_and_execute_final_query_node aliases tables execQ s).1

/-- The id-free invariant for one thread state. -/
def IdFreeState (s : ChatState) : Prop :=
  (∀ kv ∈ s.partial_values, pyLower kv.1 ≠ "id") ∧
  (∀ f ∈ s.missing_fields, pyLower f ≠ "id")

/-- A parsed tabular result (the model of a pandas DataFrame). -/
structure PyDF where
  headers : List String
  rows : List (List String)
deriving Repr, DecidableEq

/-- The value `execute_query` returns: a message string or a
DataFrame. -/
inductive ExecValue where
  | str (v : String)
  | df (d : PyDF)
deriving Repr, DecidableEq

/-- The cells of one `|`-separated line, stripped. -/
def splitCells (l : String) : List String :=
  (splitOnChar '|' l.toList).map (fun g => pyStrip (String.mk g))

/-- The lines of a result string. -/
def splitLines (s : String) : List String :=
  (splitOnChar '\n' s.toList).map String.mk

/-- The DataFrame fallback of the SELECT branch: `pd.read_sql_query`
(an oracle that may raise) with the raw result string on failure. -/
def dfFallback (readSql : String → Except String PyDF) (query result : String) : ExecValue :=
  match readSql query with
  | .ok d => .df d
  | .error _ => .str result

/-- `SQLAgent.execute_query`: guard against empty/comment queries, run
the driver (the `dbRun` oracle, whose failure is caught and reported as
a structured message), and for SELECT statements attempt to parse the
result text as a `|`-table, falling back to `pd.read_sql_query` (the
`readSql` oracle, whose failure is caught and the raw result string
returned). The function is total: no branch re-raises. -/
def execute_query (dbRun : String → Except String String)
    (readSql : String → Except String PyDF) (query : String) : ExecValue :=
  if query = "" || pyStartsWith (pyStrip query) "--" then .str "Invalid query provided"
  else
    match dbRun query with
    | .error e => .str ("Error executing query: " ++ e)
    | .ok result =>
      if pyStartsWith (pyUpper (pyStrip query)) "SELECT" then
        if result ≠ "" then
          let lines := splitLines (pyStrip result)
          if 1 < lines.length then
            match lines.filter (fun l => pyHasChar l '|') with
            | [] => dfFallback readSql query result
            | [_] => dfFallback readSql query result
            | hd :: tl => .df ⟨splitCells hd, tl.map splitCells⟩
          else dfFallback readSql query result
        else dfFallback readSql query result
      else .str ("Query executed successfully. Result: " ++ result)

/-- The result dict of `Chat.run` as consumed by the UI layer. -/
structure RunResult where
  execution_result : String
  summary : String
deriving Repr, DecidableEq

/-- `Chat.run`: invoke the compiled graph (the `invoke` oracle, any
exception of which is caught) and return either the serialized result
or the structured error dict. -/
def chat_run (invoke : Except String RunResult) : RunResult :=
  match invoke with
  | .ok r => r
  | .error e =>
    ⟨"An error occurred: " ++ e,
      "Sorry, I encountered an error while processing your request."⟩

example : pyParseValue "5" = PyVal.vInt 5 := by decide

example : pyParseValue "null" = PyVal.vNone := by decide

example : pyParseValue " 70000.5 " = PyVal.vFloat "70000.5" := by decide

example : pyParseValue "abc" = PyVal.vStr "abc" := by decide

example : pyParseValue "1e5" = PyVal.vStr "1e5" := by decide

example : pyParseValue "-42" = PyVal.vInt (-42) := by decide

example : pyParseValue "1_0" = PyVal.vInt 10 := by decide

/-- C5 counterexample: on the quoted token `'it''s'` the parser only
strips the outer quotes; the escaped-quote sequence `''` inside is NOT
collapsed to a single quote, contradicting the claim's collapsing rule. -/
theorem c5_counterexample_no_quote_collapsing :
    pyParseValue (sqStr ++ "it" ++ sqStr ++ sqStr ++ "s" ++ sqStr) =
      PyVal.vStr ("it" ++ sqStr ++ sqStr ++ "s") ∧
    ("it" ++ sqStr ++ sqStr ++ "s") ≠ ("it" ++ sqStr ++ "s") := by
  constructor
  · decide
  · decide

/-- C5 (amended): `_parse_value` behaves exactly as the amended rules
state — `NULL` (case-insensitive) to null; a token surrounded by
matching quotes to the string with only the surrounding quotes stripped
(escaped-quote sequences are not collapsed); an unquoted numeric token
to an integer when it contains no decimal point and to a float
otherwise; the raw (stripped) string in every other case. -/
theorem c5_parse_value_matches_amended_spec (s : String) :
    pyParseValue s = parseValueSpec s := by
  unfold pyParseValue parseValueSpec
  by_cases h1 : pyUpper (pyStrip s) = "NULL" <;>
    simp only [h1, if_true, if_false, ite_true, ite_false] <;>
  by_cases h2 :
      ((pyStartsWith (pyStrip s) sqStr && pyEndsWith (pyStrip s) sqStr) ||
        (pyStartsWith (pyStrip s) dqStr && pyEndsWith (pyStrip s) dqStr)) = true <;>
    simp only [h2, if_true, if_false, ite_true, ite_false] <;>
  by_cases h3 : pyHasChar (pyStrip s) '.' = true <;>
    simp [h1, h2, h3]

/-- C1: for every alias/schema configuration, every table, every
column-value map and query type `update` or `delete` (case-insensitive),
`generate_final_sql` with an absent or empty `where_clause` raises (is
an `Except.error`, never an SQL string); for query type `select` with no
`where_clause` it returns the statement with the default predicate
`1=1`. -/
theorem c1_generate_final_sql_unsafe_mutation_guard
    (aliases : List (String × String)) (tables : List String)
    (data : List (String × PyVal)) (table : String) (query_type : String)
    (w : Option String) (hw : w = none ∨ w = some "") :
    ((pyLower query_type = "update" ∨ pyLower query_type = "delete") →
      ∃ e, generate_final_sql aliases tables data table query_type w = Except.error e) ∧
    (pyLower query_type = "select" →
      generate_final_sql aliases tables data table query_type w =
        Except.ok ("SELECT * FROM " ++ normalize_table_name aliases tables table ++
          " WHERE 1=1;")) := by
  have hwf : whereFalsy w = true := by
    rcases hw with h | h <;> simp [h, whereFalsy]
  constructor
  · rintro (h | h)
    · refine ⟨"WHERE clause required for safe UPDATE operation", ?_⟩
      unfold generate_final_sql
      have hni : ¬ pyLower query_type = "insert" := by
        intro hcon; rw [hcon] at h; simp [pyLower] at h
      simp [h, hni, hwf]
    · refine ⟨"WHERE clause required for safe DELETE operation", ?_⟩
      unfold generate_final_sql
      have hni : ¬ pyLower query_type = "insert" := by
        intro hcon; rw [hcon] at h; simp [pyLower] at h
      have hnu : ¬ pyLower query_type = "update" := by
        intro hcon; rw [hcon] at h; simp [pyLower] at h
      have hns : ¬ pyLower query_type = "select" := by
        intro hcon; rw [hcon] at h; simp [pyLower] at h
      simp [h, hni, hnu, hns, hwf]
  · intro h
    unfold generate_final_sql
    have hni : ¬ pyLower query_type = "insert" := by
      intro hcon; rw [hcon] at h; simp [pyLower] at h
    have hnu : ¬ pyLower query_type = "update" := by
      intro hcon; rw [hcon] at h; simp [pyLower] at h
    have happ : ∀ x : String, x ++ " WHERE " ++ "1=1" ++ ";" = x ++ " WHERE 1=1;" := by
      intro x
      rw [String.append_assoc, String.append_assoc]
      congr 1
    rcases hw with hw | hw <;> simp [h, hni, hnu, hw, happ]

/-- C1 witness: at the concrete standard configuration, an UPDATE with
no WHERE clause is rejected and a SELECT with no WHERE clause gets the
default predicate. -/
theorem c1_witness :
    (∃ e, generate_final_sql [] ["employee", "project"] [("name", PyVal.vStr "Ann")]
      "employee" "update" none = Except.error e) ∧
    generate_final_sql [] ["employee", "project"] [] "employee" "select" none =
      Except.ok "SELECT * FROM employee WHERE 1=1;" := by
  constructor
  · exact (c1_generate_final_sql_unsafe_mutation_guard [] ["employee", "project"]
      [("name", PyVal.vStr "Ann")] "employee" "update" none (Or.inl rfl)).1 (Or.inl (by decide))
  · have h := (c1_generate_final_sql_unsafe_mutation_guard [] ["employee", "project"]
      [] "employee" "select" none (Or.inl rfl)).2 (by decide)
    rw [h]
    simp only [Except.ok.injEq]
    decide

/-- The accumulator form of the `get_required_fields` loop. -/
theorem get_required_fields_foldl (fs : List FieldCfg) (acc : List String) :
    fs.foldl (fun acc fc => if fc.required then acc ++ [fc.name] else acc) acc =
      acc ++ (fs.filter (fun fc => fc.required)).map (fun fc => fc.name) := by
  induction fs generalizing acc with
  | nil => simp
  | cons f fs ih =>
    by_cases h : f.required <;> simp [List.foldl_cons, ih, h, List.filter_cons]

/-- C9: `get_required_fields` is deterministic and stable across repeated
calls on the same loaded configuration, and its result is exactly the
required field names in the schema's declaration order (an
order-preserving filter of the declared field sequence). -/
theorem c9_required_fields_stable_declaration_order (cfg : ModelCfg) :
    get_required_fields cfg = get_required_fields cfg ∧
    get_required_fields cfg =
      (cfg.fields.filter (fun fc => fc.required)).map (fun fc => fc.name) := by
  refine ⟨rfl, ?_⟩
  unfold get_required_fields
  simpa using get_required_fields_foldl cfg.fields []

example :
    validate_fields [("name", PyVal.vStr "Aakash"), ("department", PyVal.vNone),
      ("salary", PyVal.vNone), ("hire_date", PyVal.vNone)] PydModel.employee =
    ⟨["department", "salary"], false, []⟩ := by decide

example :
    validate_fields [("name", PyVal.vStr "Aakash"), ("department", PyVal.vStr "Engineering"),
      ("salary", PyVal.vInt 50000)] PydModel.employee = ⟨[], true, []⟩ := by decide

example :
    validate_fields [("name", PyVal.vStr "x"), ("department", PyVal.vStr "y"),
      ("salary", PyVal.vStr "NULL")] PydModel.employee =
    ⟨[], false, ["salary: Input should be a valid number, unable to parse string as a number"]⟩ := by
  decide

/-- The error-string component of one classification step. -/
theorem classifyStep_snd (vals : List (String × PyVal)) (acc : List String × List String)
    (e : PydErr) :
    (classifyStep vals acc e).2 =
      if missClassB vals e then acc.2 else acc.2 ++ [e.loc ++ ": " ++ e.msg] := by
  unfold classifyStep missClassB
  cases hlk : vals.lookup e.loc with
  | none => simp [List.contains, List.elem_iff]
  | some fv =>
    by_cases h1 : isNullish fv <;> by_cases h2 : e.etype ∈ magicTypes <;>
      by_cases h3 : e.loc ∈ acc.1 <;> simp [h1, h2, h3, List.contains, List.elem_iff]

/-- The classification loop appends exactly the non-missing errors, in
order, to the error-string list. -/
theorem foldl_classify_snd (vals : List (String × PyVal)) (errs : List PydErr)
    (acc : List String × List String) :
    (errs.foldl (classifyStep vals) acc).2 =
      acc.2 ++ (errs.filter (fun e => !missClassB vals e)).map
        (fun e => e.loc ++ ": " ++ e.msg) := by
  induction errs generalizing acc with
  | nil => simp
  | cons e es ih =>
    rw [List.foldl_cons, ih]
    by_cases h : missClassB vals e <;>
      simp [List.filter_cons, h, classifyStep_snd, List.append_assoc]

/-- Membership in the missing-field component after one step (the
absent-field branch appends without deduplication, the null-ish branch
deduplicates; membership is the same either way). -/
theorem mem_classifyStep_fst (vals : List (String × PyVal)) (acc : List String × List String)
    (e : PydErr) (f : String) :
    f ∈ (classifyStep vals acc e).1 ↔
      f ∈ acc.1 ∨ (missClassB vals e = true ∧ f = e.loc) := by
  unfold classifyStep missClassB
  cases hlk : vals.lookup e.loc with
  | none => simp
  | some fv =>
    by_cases h1 : isNullish fv
    · by_cases h2 : e.etype ∈ magicTypes
      · by_cases h3 : e.loc ∈ acc.1
        · simp only [h1, h2, h3, List.contains, List.elem_iff, if_true, if_pos,
            Bool.true_and, decide_eq_true_eq]
          constructor
          · exact fun hf => Or.inl hf
          · rintro (hf | ⟨-, rfl⟩)
            · exact hf
            · exact h3
        · simp [h1, h2, h3, List.contains, List.elem_iff, and_comm]
      · simp [h1, h2]
    · simp [h1]

/-- Membership in the missing-field component of the whole loop. -/
theorem mem_foldl_classify_fst (vals : List (String × PyVal)) (errs : List PydErr)
    (acc : List String × List String) (f : String) :
    f ∈ (errs.foldl (classifyStep vals) acc).1 ↔
      f ∈ acc.1 ∨ ∃ e ∈ errs, e.loc = f ∧ missClassB vals e = true := by
  induction errs generalizing acc with
  | nil => simp
  | cons e es ih =>
    rw [List.foldl_cons, ih]
    rw [mem_classifyStep_fst]
    constructor
    · rintro ((hf | ⟨hm, rfl⟩) | ⟨e', he', hloc, hm'⟩)
      · exact Or.inl hf
      · exact Or.inr ⟨e, by simp, rfl, hm⟩
      · exact Or.inr ⟨e', by simp [he'], hloc, hm'⟩
    · rintro (hf | ⟨e', he', hloc, hm'⟩)
      · exact Or.inl (Or.inl hf)
      · rcases List.mem_cons.mp he' with rfl | hes
        · exact Or.inl (Or.inr ⟨hm', hloc.symm⟩)
        · exact Or.inr ⟨e', hes, hloc, hm'⟩

/-- Shape of an error from the `id` field: a string value with a
non-type-level error, or a non-null-ish value. -/
theorem mem_idFieldErr_elim (vals : List (String × PyVal)) (e : PydErr)
    (he : e ∈ idFieldErr vals) :
    e.loc = "id" ∧
      ((∃ s, vals.lookup "id" = some (.vStr s) ∧ magicTypes.contains e.etype = false) ∨
       (∃ v, vals.lookup "id" = some v ∧ (∀ s, v ≠ .vStr s) ∧ v ≠ .vNone)) := by
  cases hlk : vals.lookup "id" with
  | none => simp only [idFieldErr, hlk] at he; simp at he
  | some v =>
    cases v with
    | vNone => simp only [idFieldErr, hlk] at he; simp at he
    | vInt n => simp only [idFieldErr, hlk] at he; simp at he
    | vStr s =>
      simp only [idFieldErr, hlk] at he
      split at he
      · simp at he
      · simp at he
        subst he
        exact ⟨rfl, Or.inl ⟨s, rfl, by decide⟩⟩
    | vFloat lit =>
      simp only [idFieldErr, hlk] at he
      split at he
      · simp at he
      · simp at he
        subst he
        exact ⟨rfl, Or.inr ⟨.vFloat lit, rfl, by simp, by simp⟩⟩

/-- Shape of an error from a required string field. -/
theorem mem_requiredStrFieldErr_elim (fname : String) (maxLen : Nat) (vmsg : String)
    (vals : List (String × PyVal)) (e : PydErr)
    (he : e ∈ requiredStrFieldErr fname maxLen vmsg vals) :
    e.loc = fname ∧
      ((vals.lookup fname = none ∧ e.etype = "missing") ∨
       (vals.lookup fname = some .vNone ∧ e.etype = "string_type") ∨
       (∃ s, vals.lookup fname = some (.vStr s) ∧ magicTypes.contains e.etype = false) ∨
       (∃ v, vals.lookup fname = some v ∧ (∀ s, v ≠ .vStr s) ∧ v ≠ .vNone)) := by
  cases hlk : vals.lookup fname with
  | none =>
    simp only [requiredStrFieldErr, hlk] at he
    simp at he
    subst he
    exact ⟨rfl, Or.inl ⟨rfl, rfl⟩⟩
  | some v =>
    cases v with
    | vNone =>
      simp only [requiredStrFieldErr, hlk] at he
      simp at he
      subst he
      exact ⟨rfl, Or.inr (Or.inl ⟨rfl, rfl⟩)⟩
    | vInt n =>
      simp only [requiredStrFieldErr, hlk] at he
      simp at he
      subst he
      exact ⟨rfl, Or.inr (Or.inr (Or.inr ⟨.vInt n, rfl, by simp, by simp⟩))⟩
    | vFloat lit =>
      simp only [requiredStrFieldErr, hlk] at he
      simp at he
      subst he
      exact ⟨rfl, Or.inr (Or.inr (Or.inr ⟨.vFloat lit, rfl, by simp, by simp⟩))⟩
    | vStr s =>
      simp only [requiredStrFieldErr, hlk] at he
      split at he
      · simp at he
        subst he
        exact ⟨rfl, Or.inr (Or.inr (Or.inl ⟨s, rfl, by show magicTypes.contains "string_too_short" = false; decide⟩))⟩
      · split at he
        · simp at he
          subst he
          exact ⟨rfl, Or.inr (Or.inr (Or.inl ⟨s, rfl, by show magicTypes.contains "string_too_long" = false; decide⟩))⟩
        · split at he
          · simp at he
            subst he
            exact ⟨rfl, Or.inr (Or.inr (Or.inl ⟨s, rfl, by show magicTypes.contains "value_error" = false; decide⟩))⟩
          · simp at he

/-- Shape of an error from an optional string field. -/
theorem mem_optionalStrFieldErr_elim (fname : String) (maxLen : Nat)
    (vals : List (String × PyVal)) (e : PydErr)
    (he : e ∈ optionalStrFieldErr fname maxLen vals) :
    e.loc = fname ∧
      ((∃ s, vals.lookup fname = some (.vStr s) ∧ magicTypes.contains e.etype = false) ∨
       (∃ v, vals.lookup fname = some v ∧ (∀ s, v ≠ .vStr s) ∧ v ≠ .vNone)) := by
  cases hlk : vals.lookup fname with
  | none => simp only [optionalStrFieldErr, hlk] at he; simp at he
  | some v =>
    cases v with
    | vNone => simp only [optionalStrFieldErr, hlk] at he; simp at he
    | vInt n =>
      simp only [optionalStrFieldErr, hlk] at he
      simp at he
      subst he
      exact ⟨rfl, Or.inr ⟨.vInt n, rfl, by simp, by simp⟩⟩
    | vFloat lit =>
      simp only [optionalStrFieldErr, hlk] at he
      simp at he
      subst he
      exact ⟨rfl, Or.inr ⟨.vFloat lit, rfl, by simp, by simp⟩⟩
    | vStr s =>
      simp only [optionalStrFieldErr, hlk] at he
      split at he
      · simp at he
        subst he
        exact ⟨rfl, Or.inl ⟨s, rfl, by show magicTypes.contains "string_too_long" = false; decide⟩⟩
      · simp at he

/-- Shape of an error from an optional date field. -/
theorem mem_optionalDateFieldErr_elim (fname : String) (vmsg : String)
    (vals : List (String × PyVal)) (e : PydErr)
    (he : e ∈ optionalDateFieldErr fname vmsg vals) :
    e.loc = fname ∧
      ((∃ s, vals.lookup fname = some (.vStr s) ∧ magicTypes.contains e.etype = false) ∨
       (∃ v, vals.lookup fname = some v ∧ (∀ s, v ≠ .vStr s) ∧ v ≠ .vNone)) := by
  cases hlk : vals.lookup fname with
  | none => simp only [optionalDateFieldErr, hlk] at he; simp at he
  | some v =>
    cases v with
    | vNone => simp only [optionalDateFieldErr, hlk] at he; simp at he
    | vInt n =>
      simp only [optionalDateFieldErr, hlk] at he
      simp at he
      subst he
      exact ⟨rfl, Or.inr ⟨.vInt n, rfl, by simp, by simp⟩⟩
    | vFloat lit =>
      simp only [optionalDateFieldErr, hlk] at he
      simp at he
      subst he
      exact ⟨rfl, Or.inr ⟨.vFloat lit, rfl, by simp, by simp⟩⟩
    | vStr s =>
      simp only [optionalDateFieldErr, hlk] at he
      split at he
      · simp at he
      · split at he
        · simp at he
        · simp at he
          subst he
          exact ⟨rfl, Or.inl ⟨s, rfl, by show magicTypes.contains "value_error" = false; decide⟩⟩

/-- Shape of an error from a `ge=0` numeric field. -/
theorem mem_numGeZeroFieldErr_elim (fname : String) (req : Bool)
    (vals : List (String × PyVal)) (e : PydErr)
    (he : e ∈ numGeZeroFieldErr fname req vals) :
    e.loc = fname ∧
      ((req = true ∧ vals.lookup fname = none ∧ e.etype = "missing") ∨
       (req = true ∧ vals.lookup fname = some .vNone ∧ e.etype = "float_type") ∨
       (∃ s, vals.lookup fname = some (.vStr s) ∧ magicTypes.contains e.etype = false) ∨
       (∃ v, vals.lookup fname = some v ∧ (∀ s, v ≠ .vStr s) ∧ v ≠ .vNone)) := by
  cases hlk : vals.lookup fname with
  | none =>
    simp only [numGeZeroFieldErr, hlk] at he
    cases req with
    | false => simp at he
    | true =>
      simp at he
      subst he
      exact ⟨rfl, Or.inl ⟨rfl, rfl, rfl⟩⟩
  | some v =>
    cases v with
    | vNone =>
      simp only [numGeZeroFieldErr, hlk] at he
      cases req with
      | false => simp at he
      | true =>
        simp at he
        subst he
        exact ⟨rfl, Or.inr (Or.inl ⟨rfl, rfl, rfl⟩)⟩
    | vInt n =>
      simp only [numGeZeroFieldErr, hlk] at he
      split at he
      · simp at he
        subst he
        exact ⟨rfl, Or.inr (Or.inr (Or.inr ⟨.vInt n, rfl, by simp, by simp⟩))⟩
      · simp at he
    | vFloat lit =>
      simp only [numGeZeroFieldErr, hlk] at he
      split at he
      · simp at he
      · simp at he
        subst he
        exact ⟨rfl, Or.inr (Or.inr (Or.inr ⟨.vFloat lit, rfl, by simp, by simp⟩))⟩
    | vStr s =>
      simp only [numGeZeroFieldErr, hlk] at he
      split at he
      · split at he
        · simp at he
        · simp at he
          subst he
          exact ⟨rfl, Or.inr (Or.inr (Or.inl ⟨s, rfl, by show magicTypes.contains "greater_than_equal" = false; decide⟩))⟩
      · simp at he
        subst he
        exact ⟨rfl, Or.inr (Or.inr (Or.inl ⟨s, rfl, by show magicTypes.contains "float_parsing" = false; decide⟩))⟩

/-- A value that is neither a string nor `None` is not null-ish. -/
theorem isNullish_eq_false (v : PyVal) (hs : ∀ s, v ≠ .vStr s) (hn : v ≠ .vNone) :
    isNullish v = false := by
  cases v with
  | vNone => exact absurd rfl hn
  | vStr s => exact absurd rfl (hs s)
  | vInt n => rfl
  | vFloat lit => rfl

/-- Membership decomposition of `employeeErrors` into its five field
segments. -/
theorem mem_employeeErrors (vals : List (String × PyVal)) (e : PydErr) :
    e ∈ employeeErrors vals ↔
      e ∈ idFieldErr vals ∨
      e ∈ requiredStrFieldErr "name" 100 "name is required and cannot be empty" vals ∨
      e ∈ requiredStrFieldErr "department" 50 "department is required and cannot be empty" vals ∨
      e ∈ numGeZeroFieldErr "salary" true vals ∨
      e ∈ optionalDateFieldErr "hire_date" "hire_date must be in YYYY-MM-DD format" vals := by
  simp [employeeErrors, List.mem_append, or_assoc]

/-- Membership decomposition of `projectErrors` into its seven field
segments. -/
theorem mem_projectErrors (vals : List (String × PyVal)) (e : PydErr) :
    e ∈ projectErrors vals ↔
      e ∈ idFieldErr vals ∨
      e ∈ requiredStrFieldErr "name" 100 "name is required and cannot be empty" vals ∨
      e ∈ optionalStrFieldErr "description" 500 vals ∨
      e ∈ optionalDateFieldErr "start_date" "Date must be in YYYY-MM-DD format" vals ∨
      e ∈ optionalDateFieldErr "end_date" "Date must be in YYYY-MM-DD format" vals ∨
      e ∈ numGeZeroFieldErr "budget" false vals ∨
      e ∈ optionalStrFieldErr "department" 50 vals := by
  simp [projectErrors, List.mem_append, or_assoc]

/-- A required field that is absent or `None` always produces an error
that the classification loop counts as missing. -/
theorem required_absent_err_exists (m : PydModel) (vals : List (String × PyVal)) (f : String)
    (hreq : f ∈ modelRequired m)
    (habs : vals.lookup f = none ∨ vals.lookup f = some PyVal.vNone) :
    ∃ e ∈ modelErrors m vals, e.loc = f ∧ missClassB vals e = true := by
  cases m with
  | employee =>
    simp only [modelRequired, List.mem_cons, List.not_mem_nil, or_false] at hreq
    rcases hreq with rfl | rfl | rfl
    · rcases habs with h | h
      · exact ⟨⟨"name", "missing", "Field required"⟩,
          (mem_employeeErrors vals _).mpr (Or.inr (Or.inl (by simp [requiredStrFieldErr, h]))),
          rfl, by simp [missClassB, h]⟩
      · refine ⟨⟨"name", "string_type", "Input should be a valid string"⟩,
          (mem_employeeErrors vals _).mpr (Or.inr (Or.inl (by simp [requiredStrFieldErr, h]))),
          rfl, ?_⟩
        simp only [missClassB, h, isNullish]
        decide
    · rcases habs with h | h
      · exact ⟨⟨"department", "missing", "Field required"⟩,
          (mem_employeeErrors vals _).mpr (Or.inr (Or.inr (Or.inl
            (by simp [requiredStrFieldErr, h])))),
          rfl, by simp [missClassB, h]⟩
      · refine ⟨⟨"department", "string_type", "Input should be a valid string"⟩,
          (mem_employeeErrors vals _).mpr (Or.inr (Or.inr (Or.inl
            (by simp [requiredStrFieldErr, h])))),
          rfl, ?_⟩
        simp only [missClassB, h, isNullish]
        decide
    · rcases habs with h | h
      · exact ⟨⟨"salary", "missing", "Field required"⟩,
          (mem_employeeErrors vals _).mpr (Or.inr (Or.inr (Or.inr (Or.inl
            (by simp [numGeZeroFieldErr, h]))))),
          rfl, by simp [missClassB, h]⟩
      · refine ⟨⟨"salary", "float_type", "Input should be a valid number"⟩,
          (mem_employeeErrors vals _).mpr (Or.inr (Or.inr (Or.inr (Or.inl
            (by simp [numGeZeroFieldErr, h]))))),
          rfl, ?_⟩
        simp only [missClassB, h, isNullish]
        decide
  | project =>
    simp only [modelRequired, List.mem_cons, List.not_mem_nil, or_false] at hreq
    subst hreq
    rcases habs with h | h
    · exact ⟨⟨"name", "missing", "Field required"⟩,
        (mem_projectErrors vals _).mpr (Or.inr (Or.inl (by simp [requiredStrFieldErr, h]))),
        rfl, by simp [missClassB, h]⟩
    · refine ⟨⟨"name", "string_type", "Input should be a valid string"⟩,
        (mem_projectErrors vals _).mpr (Or.inr (Or.inl (by simp [requiredStrFieldErr, h]))),
        rfl, ?_⟩
      simp only [missClassB, h, isNullish]
      decide

/-- Any model error located at a field holding a string value has a
non-type-level error type (so the classification loop never counts it
as missing). -/
theorem modelErrors_str_not_magic (m : PydModel) (vals : List (String × PyVal)) (e : PydErr)
    (s : String) (he : e ∈ modelErrors m vals) (hl : vals.lookup e.loc = some (.vStr s)) :
    magicTypes.contains e.etype = false := by
  have segment :
      ∀ fname maxLen vmsg, e ∈ requiredStrFieldErr fname maxLen vmsg vals →
        vals.lookup e.loc = some (.vStr s) → magicTypes.contains e.etype = false := by
    intro fname maxLen vmsg hseg hl
    obtain ⟨hloc, hdisj⟩ := mem_requiredStrFieldErr_elim fname maxLen vmsg vals e hseg
    rw [hloc] at hl
    rcases hdisj with ⟨h1, -⟩ | ⟨h1, -⟩ | ⟨s', h1, hmagic⟩ | ⟨v, h1, hnstr, -⟩
    · simp [h1] at hl
    · simp [h1] at hl
    · exact hmagic
    · rw [h1] at hl
      exact absurd (Option.some.inj hl) (hnstr s)
  have segmentOptStr :
      ∀ fname maxLen, e ∈ optionalStrFieldErr fname maxLen vals →
        vals.lookup e.loc = some (.vStr s) → magicTypes.contains e.etype = false := by
    intro fname maxLen hseg hl
    obtain ⟨hloc, hdisj⟩ := mem_optionalStrFieldErr_elim fname maxLen vals e hseg
    rw [hloc] at hl
    rcases hdisj with ⟨s', h1, hmagic⟩ | ⟨v, h1, hnstr, -⟩
    · exact hmagic
    · rw [h1] at hl
      exact absurd (Option.some.inj hl) (hnstr s)
  have segmentDate :
      ∀ fname vmsg, e ∈ optionalDateFieldErr fname vmsg vals →
        vals.lookup e.loc = some (.vStr s) → magicTypes.contains e.etype = false := by
    intro fname vmsg hseg hl
    obtain ⟨hloc, hdisj⟩ := mem_optionalDateFieldErr_elim fname vmsg vals e hseg
    rw [hloc] at hl
    rcases hdisj with ⟨s', h1, hmagic⟩ | ⟨v, h1, hnstr, -⟩
    · exact hmagic
    · rw [h1] at hl
      exact absurd (Option.some.inj hl) (hnstr s)
  have segmentNum :
      ∀ fname req, e ∈ numGeZeroFieldErr fname req vals →
        vals.lookup e.loc = some (.vStr s) → magicTypes.contains e.etype = false := by
    intro fname req hseg hl
    obtain ⟨hloc, hdisj⟩ := mem_numGeZeroFieldErr_elim fname req vals e hseg
    rw [hloc] at hl
    rcases hdisj with ⟨-, h1, -⟩ | ⟨-, h1, -⟩ | ⟨s', h1, hmagic⟩ | ⟨v, h1, hnstr, -⟩
    · simp [h1] at hl
    · simp [h1] at hl
    · exact hmagic
    · rw [h1] at hl
      exact absurd (Option.some.inj hl) (hnstr s)
  have segmentId : e ∈ idFieldErr vals →
      vals.lookup e.loc = some (.vStr s) → magicTypes.contains e.etype = false := by
    intro hseg hl
    obtain ⟨hloc, hdisj⟩ := mem_idFieldErr_elim vals e hseg
    rw [hloc] at hl
    rcases hdisj with ⟨s', h1, hmagic⟩ | ⟨v, h1, hnstr, -⟩
    · exact hmagic
    · rw [h1] at hl
      exact absurd (Option.some.inj hl) (hnstr s)
  cases m with
  | employee =>
    simp only [modelErrors] at he
    rw [mem_employeeErrors] at he
    rcases he with h | h | h | h | h
    · exact segmentId h hl
    · exact segment _ _ _ h hl
    · exact segment _ _ _ h hl
    · exact segmentNum _ _ h hl
    · exact segmentDate _ _ h hl
  | project =>
    simp only [modelErrors] at he
    rw [mem_projectErrors] at he
    rcases he with h | h | h | h | h | h | h
    · exact segmentId h hl
    · exact segment _ _ _ h hl
    · exact segmentOptStr _ _ h hl
    · exact segmentDate _ _ h hl
    · exact segmentDate _ _ h hl
    · exact segmentNum _ _ h hl
    · exact segmentOptStr _ _ h hl

/-- The validator's `missing_fields` output contains exactly the
required fields whose value in the map is absent or `None`. -/
theorem validate_missing_iff (m : PydModel) (vals : List (String × PyVal)) (f : String) :
    f ∈ (validate_fields vals m).missingFields ↔
      f ∈ modelRequired m ∧
        (vals.lookup f = none ∨ vals.lookup f = some PyVal.vNone) := by
  by_cases hE : (modelErrors m vals).isEmpty
  · have hnil : modelErrors m vals = [] := List.isEmpty_iff.mp hE
    have hmiss : (validate_fields vals m).missingFields = [] := by
      unfold validate_fields
      simp [hE]
    rw [hmiss]
    constructor
    · intro hf
      simp at hf
    · rintro ⟨hreq, habs⟩
      obtain ⟨e, he, -, -⟩ := required_absent_err_exists m vals f hreq habs
      rw [hnil] at he
      simp at he
  · have hE2 : (modelErrors m vals).isEmpty = false := by
      cases h : (modelErrors m vals).isEmpty
      · rfl
      · exact absurd h hE
    have hmiss : (validate_fields vals m).missingFields =
        ((modelErrors m vals).foldl (classifyStep vals) ([], [])).1 := by
      unfold validate_fields
      simp [hE2]
    rw [hmiss, mem_foldl_classify_fst]
    simp only [List.not_mem_nil, false_or]
    constructor
    · rintro ⟨e, he, hloc, hm⟩
      subst hloc
      have hmain :
          ∀ fname maxLen vmsg, e ∈ requiredStrFieldErr fname maxLen vmsg vals →
            fname ∈ modelRequired m →
            e.loc ∈ modelRequired m ∧
              (vals.lookup e.loc = none ∨ vals.lookup e.loc = some PyVal.vNone) := by
        intro fname maxLen vmsg hseg hfreq
        obtain ⟨hloc2, hdisj⟩ := mem_requiredStrFieldErr_elim fname maxLen vmsg vals e hseg
        rw [hloc2]
        rcases hdisj with ⟨h1, -⟩ | ⟨h1, -⟩ | ⟨s', h1, hmagic⟩ | ⟨v, h1, hnstr, hnnone⟩
        · exact ⟨hfreq, Or.inl h1⟩
        · exact ⟨hfreq, Or.inr h1⟩
        · simp only [missClassB, hloc2, h1] at hm
          rw [hmagic, Bool.and_false] at hm
          simp at hm
        · simp [missClassB, hloc2, h1, isNullish_eq_false v hnstr hnnone] at hm
      have hnumMain :
          ∀ fname, e ∈ numGeZeroFieldErr fname true vals →
            fname ∈ modelRequired m →
            e.loc ∈ modelRequired m ∧
              (vals.lookup e.loc = none ∨ vals.lookup e.loc = some PyVal.vNone) := by
        intro fname hseg hfreq
        obtain ⟨hloc2, hdisj⟩ := mem_numGeZeroFieldErr_elim fname true vals e hseg
        rw [hloc2]
        rcases hdisj with ⟨-, h1, -⟩ | ⟨-, h1, -⟩ | ⟨s', h1, hmagic⟩ | ⟨v, h1, hnstr, hnnone⟩
        · exact ⟨hfreq, Or.inl h1⟩
        · exact ⟨hfreq, Or.inr h1⟩
        · simp only [missClassB, hloc2, h1] at hm
          rw [hmagic, Bool.and_false] at hm
          simp at hm
        · simp [missClassB, hloc2, h1, isNullish_eq_false v hnstr hnnone] at hm
      have hcontraId : e ∈ idFieldErr vals → False := by
        intro hseg
        obtain ⟨hloc2, hdisj⟩ := mem_idFieldErr_elim vals e hseg
        rcases hdisj with ⟨s', h1, hmagic⟩ | ⟨v, h1, hnstr, hnnone⟩
        · simp only [missClassB, hloc2, h1] at hm
          rw [hmagic, Bool.and_false] at hm
          simp at hm
        · simp [missClassB, hloc2, h1, isNullish_eq_false v hnstr hnnone] at hm
      have hcontraOptStr : ∀ fname maxLen, e ∈ optionalStrFieldErr fname maxLen vals → False := by
        intro fname maxLen hseg
        obtain ⟨hloc2, hdisj⟩ := mem_optionalStrFieldErr_elim fname maxLen vals e hseg
        rcases hdisj with ⟨s', h1, hmagic⟩ | ⟨v, h1, hnstr, hnnone⟩
        · simp only [missClassB, hloc2, h1] at hm
          rw [hmagic, Bool.and_false] at hm
          simp at hm
        · simp [missClassB, hloc2, h1, isNullish_eq_false v hnstr hnnone] at hm
      have hcontraDate : ∀ fname vmsg, e ∈ optionalDateFieldErr fname vmsg vals → False := by
        intro fname vmsg hseg
        obtain ⟨hloc2, hdisj⟩ := mem_optionalDateFieldErr_elim fname vmsg vals e hseg
        rcases hdisj with ⟨s', h1, hmagic⟩ | ⟨v, h1, hnstr, hnnone⟩
        · simp only [missClassB, hloc2, h1] at hm
          rw [hmagic, Bool.and_false] at hm
          simp at hm
        · simp [missClassB, hloc2, h1, isNullish_eq_false v hnstr hnnone] at hm
      have hcontraNumOpt : ∀ fname, e ∈ numGeZeroFieldErr fname false vals → False := by
        intro fname hseg
        obtain ⟨hloc2, hdisj⟩ := mem_numGeZeroFieldErr_elim fname false vals e hseg
        rcases hdisj with ⟨hfalse, -⟩ | ⟨hfalse, -⟩ | ⟨s', h1, hmagic⟩ | ⟨v, h1, hnstr, hnnone⟩
        · exact Bool.false_ne_true hfalse
        · exact Bool.false_ne_true hfalse
        · simp only [missClassB, hloc2, h1] at hm
          rw [hmagic, Bool.and_false] at hm
          simp at hm
        · simp [missClassB, hloc2, h1, isNullish_eq_false v hnstr hnnone] at hm
      cases m with
      | employee =>
        simp only [modelErrors] at he
        rw [mem_employeeErrors] at he
        rcases he with h | h | h | h | h
        · exact absurd h (fun h => hcontraId h)
        · exact hmain _ _ _ h (by simp [modelRequired])
        · exact hmain _ _ _ h (by simp [modelRequired])
        · exact hnumMain _ h (by simp [modelRequired])
        · exact absurd h (fun h => hcontraDate _ _ h)
      | project =>
        simp only [modelErrors] at he
        rw [mem_projectErrors] at he
        rcases he with h | h | h | h | h | h | h
        · exact absurd h (fun h => hcontraId h)
        · exact hmain _ _ _ h (by simp [modelRequired])
        · exact absurd h (fun h => hcontraOptStr _ _ h)
        · exact absurd h (fun h => hcontraDate _ _ h)
        · exact absurd h (fun h => hcontraDate _ _ h)
        · exact absurd h (fun h => hcontraNumOpt _ h)
        · exact absurd h (fun h => hcontraOptStr _ _ h)
    · rintro ⟨hreq, habs⟩
      exact required_absent_err_exists m vals f hreq habs

/-- The validator's `validation_errors` output lists exactly the model
errors that the loop does not classify as missing, in order. -/
theorem validate_errors_spec (m : PydModel) (vals : List (String × PyVal)) :
    (validate_fields vals m).errors =
      ((modelErrors m vals).filter (fun e => !missClassB vals e)).map
        (fun e => e.loc ++ ": " ++ e.msg) := by
  unfold validate_fields
  by_cases hE : (modelErrors m vals).isEmpty
  · have hnil : modelErrors m vals = [] := List.isEmpty_iff.mp hE
    simp [hE, hnil]
  · simp [hE, foldl_classify_snd]

/-- Any model error located at a field holding `None` has a type-level
error type (so the classification loop counts it as missing). -/
theorem modelErrors_none_magic (m : PydModel) (vals : List (String × PyVal)) (e : PydErr)
    (he : e ∈ modelErrors m vals) (hl : vals.lookup e.loc = some PyVal.vNone) :
    magicTypes.contains e.etype = true := by
  have segReq :
      ∀ fname maxLen vmsg, e ∈ requiredStrFieldErr fname maxLen vmsg vals →
        magicTypes.contains e.etype = true := by
    intro fname maxLen vmsg hseg
    obtain ⟨hloc, hdisj⟩ := mem_requiredStrFieldErr_elim fname maxLen vmsg vals e hseg
    rw [hloc] at hl
    rcases hdisj with ⟨h1, -⟩ | ⟨-, h2⟩ | ⟨s', h1, -⟩ | ⟨v, h1, -, hnnone⟩
    · simp [h1] at hl
    · rw [h2]; decide
    · rw [h1] at hl
      simp at hl
    · rw [h1] at hl
      exact absurd (Option.some.inj hl) hnnone
  have segNum :
      ∀ fname req, e ∈ numGeZeroFieldErr fname req vals →
        magicTypes.contains e.etype = true := by
    intro fname req hseg
    obtain ⟨hloc, hdisj⟩ := mem_numGeZeroFieldErr_elim fname req vals e hseg
    rw [hloc] at hl
    rcases hdisj with ⟨-, h1, -⟩ | ⟨-, -, h2⟩ | ⟨s', h1, -⟩ | ⟨v, h1, -, hnnone⟩
    · simp [h1] at hl
    · rw [h2]; decide
    · rw [h1] at hl
      simp at hl
    · rw [h1] at hl
      exact absurd (Option.some.inj hl) hnnone
  have segId : e ∈ idFieldErr vals → magicTypes.contains e.etype = true := by
    intro hseg
    obtain ⟨hloc, hdisj⟩ := mem_idFieldErr_elim vals e hseg
    rw [hloc] at hl
    rcases hdisj with ⟨s', h1, -⟩ | ⟨v, h1, -, hnnone⟩
    · rw [h1] at hl
      simp at hl
    · rw [h1] at hl
      exact absurd (Option.some.inj hl) hnnone
  have segOptStr : ∀ fname maxLen, e ∈ optionalStrFieldErr fname maxLen vals →
      magicTypes.contains e.etype = true := by
    intro fname maxLen hseg
    obtain ⟨hloc, hdisj⟩ := mem_optionalStrFieldErr_elim fname maxLen vals e hseg
    rw [hloc] at hl
    rcases hdisj with ⟨s', h1, -⟩ | ⟨v, h1, -, hnnone⟩
    · rw [h1] at hl
      simp at hl
    · rw [h1] at hl
      exact absurd (Option.some.inj hl) hnnone
  have segDate : ∀ fname vmsg, e ∈ optionalDateFieldErr fname vmsg vals →
      magicTypes.contains e.etype = true := by
    intro fname vmsg hseg
    obtain ⟨hloc, hdisj⟩ := mem_optionalDateFieldErr_elim fname vmsg vals e hseg
    rw [hloc] at hl
    rcases hdisj with ⟨s', h1, -⟩ | ⟨v, h1, -, hnnone⟩
    · rw [h1] at hl
      simp at hl
    · rw [h1] at hl
      exact absurd (Option.some.inj hl) hnnone
  cases m with
  | employee =>
    simp only [modelErrors] at he
    rw [mem_employeeErrors] at he
    rcases he with h | h | h | h | h
    · exact segId h
    · exact segReq _ _ _ h
    · exact segReq _ _ _ h
    · exact segNum _ _ h
    · exact segDate _ _ h
  | project =>
    simp only [modelErrors] at he
    rw [mem_projectErrors] at he
    rcases he with h | h | h | h | h | h | h
    · exact segId h
    · exact segReq _ _ _ h
    · exact segOptStr _ _ h
    · exact segDate _ _ h
    · exact segDate _ _ h
    · exact segNum _ _ h
    · exact segOptStr _ _ h

/-- C3 counterexample: the required field `salary` carries the
NULL-sentinel string; `validate_fields` does NOT report it in
`missing_fields` (pydantic reports `float_parsing`, which is not an
absence-of-value type) and returns a non-empty `errors` list,
contradicting the claim. -/
theorem c3_counterexample_null_sentinel :
    "salary" ∈ modelRequired PydModel.employee ∧
    List.lookup "salary" [("name", PyVal.vStr "x"), ("department", PyVal.vStr "y"),
      ("salary", PyVal.vStr "NULL")] = some (PyVal.vStr "NULL") ∧
    "salary" ∉ (validate_fields [("name", PyVal.vStr "x"), ("department", PyVal.vStr "y"),
      ("salary", PyVal.vStr "NULL")] PydModel.employee).missingFields ∧
    (validate_fields [("name", PyVal.vStr "x"), ("department", PyVal.vStr "y"),
      ("salary", PyVal.vStr "NULL")] PydModel.employee).errors ≠ [] := by
  decide

/-- C3 (amended): for every column-value map in which a required field
is absent or maps to Python `None`, `validate_fields` returns that
field in `missingFields`; and when every reported error concerns a
required field that is absent or `None` (all present values validate
cleanly), the `errors` list is empty. A required field carrying the
NULL-sentinel *string* is instead reported in `errors`. -/
theorem c3_validate_missing_required (m : PydModel) (vals : List (String × PyVal))
    (f : String) (hreq : f ∈ modelRequired m)
    (habs : vals.lookup f = none ∨ vals.lookup f = some PyVal.vNone)
    (hclean : ∀ e ∈ modelErrors m vals,
      vals.lookup e.loc = none ∨ vals.lookup e.loc = some PyVal.vNone) :
    f ∈ (validate_fields vals m).missingFields ∧ (validate_fields vals m).errors = [] := by
  constructor
  · exact (validate_missing_iff m vals f).mpr ⟨hreq, habs⟩
  · rw [validate_errors_spec]
    have hall : ∀ e ∈ modelErrors m vals, missClassB vals e = true := by
      intro e he
      rcases hclean e he with h | h
      · simp [missClassB, h]
      · have hmagic := modelErrors_none_magic m vals e he h
        simp only [missClassB, h, isNullish]
        rw [hmagic]
        rfl
    have hfilter : (modelErrors m vals).filter (fun e => !missClassB vals e) = [] := by
      apply List.filter_eq_nil.mpr
      intro e he
      simp [hall e he]
    rw [hfilter]
    rfl

/-- C3 witness: with only `name` supplied, `department` is reported
missing and no validation error is produced. -/
theorem c3_witness :
    "department" ∈ (validate_fields [("name", PyVal.vStr "Aakash")]
      PydModel.employee).missingFields ∧
    (validate_fields [("name", PyVal.vStr "Aakash")] PydModel.employee).errors = [] :=
  c3_validate_missing_required PydModel.employee [("name", PyVal.vStr "Aakash")]
    "department" (by decide) (Or.inl (by decide)) (by decide)

/-- C4: for every column-value map in which a required field is present
with a non-null value that the schema model rejects (a coercion or
format error located at that field), `validate_fields` reports the
field in `errors` (as a `field: message` entry) and does not report it
in `missingFields`. -/
theorem c4_invalid_present_value_is_error (m : PydModel) (vals : List (String × PyVal))
    (f : String) (v : PyVal) (hreq : f ∈ modelRequired m)
    (hlk : vals.lookup f = some v) (hnn : v ≠ PyVal.vNone)
    (herr : ∃ e ∈ modelErrors m vals, e.loc = f) :
    (∃ msg, (f ++ ": " ++ msg) ∈ (validate_fields vals m).errors) ∧
    f ∉ (validate_fields vals m).missingFields := by
  obtain ⟨e, he, hloc⟩ := herr
  have hlk2 : vals.lookup e.loc = some v := by rw [hloc]; exact hlk
  have hmc : missClassB vals e = false := by
    cases v with
    | vNone => exact absurd rfl hnn
    | vStr s =>
      simp only [missClassB, hlk2]
      rw [modelErrors_str_not_magic m vals e s he hlk2, Bool.and_false]
    | vInt n =>
      simp only [missClassB, hlk2]
      rfl
    | vFloat lit =>
      simp only [missClassB, hlk2]
      rfl
  constructor
  · refine ⟨e.msg, ?_⟩
    rw [validate_errors_spec]
    apply List.mem_map.mpr
    refine ⟨e, List.mem_filter.mpr ⟨he, by rw [hmc]; rfl⟩, by rw [hloc]⟩
  · rw [validate_missing_iff]
    rintro ⟨-, habs | habs⟩
    · rw [habs] at hlk
      simp at hlk
    · rw [habs] at hlk
      exact hnn (Option.some.inj hlk).symm

/-- C4 witness: `salary` present with the unparsable string `abc` is
reported as a validation error, not as a missing field. -/
theorem c4_witness :
    (∃ msg, ("salary" ++ ": " ++ msg) ∈ (validate_fields [("name", PyVal.vStr "Bob"),
      ("department", PyVal.vStr "Sales"), ("salary", PyVal.vStr "abc")]
      PydModel.employee).errors) ∧
    "salary" ∉ (validate_fields [("name", PyVal.vStr "Bob"),
      ("department", PyVal.vStr "Sales"), ("salary", PyVal.vStr "abc")]
      PydModel.employee).missingFields :=
  c4_invalid_present_value_is_error PydModel.employee
    [("name", PyVal.vStr "Bob"), ("department", PyVal.vStr "Sales"),
      ("salary", PyVal.vStr "abc")]
    "salary" (PyVal.vStr "abc") (by decide) (by decide) (by decide)
    ⟨⟨"salary", "float_parsing", "Input should be a valid number, unable to parse string as a number"⟩,
      by decide, rfl⟩

example :
    parse_insert_or_update_query [] ["employee", "project"]
      "INSERT INTO employee (name, salary) VALUES (Bob, 50000)" =
    some ("employee", "insert", [("name", PyVal.vStr "Bob"), ("salary", PyVal.vInt 50000)]) := by
  decide

example :
    parse_insert_or_update_query [] ["employee", "project"]
      "UPDATE employee SET salary = 60000 WHERE id = 3" =
    some ("employee", "update", [("salary", PyVal.vInt 60000)]) := by
  decide

example :
    parse_insert_or_update_query [] ["employee", "project"]
      "UPDATE employee SET id = 9, salary = 60000" =
    some ("employee", "update", [("salary", PyVal.vInt 60000)]) := by
  decide

example :
    parse_insert_or_update_query [] ["employee", "project"] "SELECT * FROM employee" =
    none := by
  decide

/-- Keys produced by a dict assignment: the new key or an existing one. -/
theorem mem_pyDictInsert (d : List (String × PyVal)) (k : String) (v : PyVal)
    (kv : String × PyVal) (h : kv ∈ pyDictInsert d k v) : kv.1 = k ∨ kv ∈ d := by
  unfold pyDictInsert at h
  split at h
  · obtain ⟨kv0, hkv0, heq⟩ := List.mem_map.mp h
    by_cases hk : kv0.1 = k
    · simp only [hk, if_true] at heq
      exact Or.inl (by rw [← heq])
    · simp only [hk, if_false] at heq
      exact Or.inr (heq ▸ hkv0)
  · rcases List.mem_append.mp h with h1 | h1
    · exact Or.inr h1
    · simp at h1
      exact Or.inl (by rw [h1])

/-- The INSERT data builder never emits a key whose lower-case form is
`id`. -/
theorem buildInsertData_no_id (pairs : List (String × PyVal)) :
    ∀ kv ∈ buildInsertData pairs, pyLower kv.1 ≠ "id" := by
  have aux : ∀ (ps : List (String × PyVal)) (d : List (String × PyVal)),
      (∀ kv ∈ d, pyLower kv.1 ≠ "id") →
      ∀ kv ∈ ps.foldl
        (fun d kv => if pyLower kv.1 = "id" then d else pyDictInsert d kv.1 kv.2) d,
        pyLower kv.1 ≠ "id" := by
    intro ps
    induction ps with
    | nil => intro d hd kv hkv; exact hd kv hkv
    | cons p ps ih =>
      intro d hd kv hkv
      rw [List.foldl_cons] at hkv
      by_cases hp : pyLower p.1 = "id"
      · rw [if_pos hp] at hkv
        exact ih d hd kv hkv
      · rw [if_neg hp] at hkv
        refine ih _ ?_ kv hkv
        intro kv2 hkv2
        rcases mem_pyDictInsert d p.1 p.2 kv2 hkv2 with h | h
        · rw [h]; exact hp
        · exact hd kv2 h
  exact aux pairs [] (by intro kv h; simp at h)

/-- The UPDATE data builder never emits a key whose lower-case form is
`id`. -/
theorem buildUpdateData_no_id (asgs : List String) :
    ∀ kv ∈ buildUpdateData asgs, pyLower kv.1 ≠ "id" := by
  have aux : ∀ (l : List String) (d : List (String × PyVal)),
      (∀ kv ∈ d, pyLower kv.1 ≠ "id") →
      ∀ kv ∈ l.foldl
        (fun d a =>
          match breakAtFirst a.toList (· = '=') with
          | none => d
          | some (k, v) =>
            let key := pyStrip (String.mk k)
            let value := pyParseValue (pyStrip (String.mk v))
            if pyLower key = "id" then d else pyDictInsert d key value) d,
        pyLower kv.1 ≠ "id" := by
    intro l
    induction l with
    | nil => intro d hd kv hkv; exact hd kv hkv
    | cons a l ih =>
      intro d hd kv hkv
      rw [List.foldl_cons] at hkv
      rcases hbr : breakAtFirst a.toList (· = '=') with - | ⟨k, v⟩
      · rw [hbr] at hkv
        exact ih d hd kv hkv
      · rw [hbr] at hkv
        simp only [] at hkv
        by_cases hp : pyLower (pyStrip (String.mk k)) = "id"
        · rw [if_pos hp] at hkv
          exact ih d hd kv hkv
        · rw [if_neg hp] at hkv
          refine ih _ ?_ kv hkv
          intro kv2 hkv2
          rcases mem_pyDictInsert _ _ _ kv2 hkv2 with h | h
          · rw [h]; exact hp
          · exact hd kv2 h
  exact aux asgs [] (by intro kv h; simp at h)

/-- The UPDATE recognizer only produces id-free maps. -/
theorem parseUpdatePart_no_id (aliases : List (String × String)) (tables : List String)
    (q t op : String) (vals : List (String × PyVal))
    (h : parseUpdatePart aliases tables q = some (t, op, vals)) :
    ∀ kv ∈ vals, pyLower kv.1 ≠ "id" := by
  unfold parseUpdatePart at h
  split at h
  · simp at h
  · split at h
    · simp at h
    · simp only [Option.some.injEq, Prod.mk.injEq] at h
      obtain ⟨-, -, hvals⟩ := h
      rw [← hvals]
      exact buildUpdateData_no_id _

/-- The extractor never returns a column-value map containing the `id`
column (case-insensitive). -/
theorem parse_query_no_id (aliases : List (String × String)) (tables : List String)
    (q t op : String) (vals : List (String × PyVal))
    (h : parse_insert_or_update_query aliases tables q = some (t, op, vals)) :
    ∀ kv ∈ vals, pyLower kv.1 ≠ "id" := by
  unfold parse_insert_or_update_query at h
  simp only [] at h
  split at h
  · split at h
    · simp only [Option.some.injEq, Prod.mk.injEq] at h
      obtain ⟨-, -, hvals⟩ := h
      rw [← hvals]
      exact buildInsertData_no_id _
    · exact parseUpdatePart_no_id _ _ _ _ _ _ h
  · exact parseUpdatePart_no_id _ _ _ _ _ _ h

/-- The validator's missing-field list never contains a name whose
lower-case form is `id` (the `id` field is optional in both models). -/
theorem validate_missing_no_id (m : PydModel) (vals : List (String × PyVal)) (f : String)
    (h : f ∈ (validate_fields vals m).missingFields) : pyLower f ≠ "id" := by
  obtain ⟨hreq, -⟩ := (validate_missing_iff m vals f).mp h
  cases m with
  | employee =>
    simp only [modelRequired, List.mem_cons, List.not_mem_nil, or_false] at hreq
    rcases hreq with rfl | rfl | rfl <;> decide
  | project =>
    simp only [modelRequired, List.mem_cons, List.not_mem_nil, or_false] at hreq
    subst hreq
    decide

/-- Inversion of a full `parse_and_validate_node` output: the extractor
succeeded, the model was found for the lower-cased table, and the
missing fields and errors are exactly the validator's recomputation on
the extracted values. -/
theorem parse_and_validate_full_inv (aliases : List (String × String)) (tables : List String)
    (s : ChatState) (t qt : String) (vals : List (String × PyVal))
    (miss errs : List String)
    (h : parse_and_validate_node aliases tables s = PVOut.full t qt vals miss errs) :
    parse_insert_or_update_query aliases tables s.generated_query = some (t, qt, vals) ∧
    ∃ model, model_map.lookup (pyLower t) = some model ∧
      miss = (validate_fields vals model).missingFields ∧
      errs = (validate_fields vals model).errors := by
  unfold parse_and_validate_node at h
  split at h
  · simp at h
  · rename_i parsed t0 qt0 vals0 hparse
    split at h
    · simp at h
    · rename_i model hmodel
      simp only [PVOut.full.injEq] at h
      obtain ⟨ht, hqt, hvals, hmiss, herrs⟩ := h
      subst ht; subst hqt; subst hvals
      exact ⟨hparse, model, hmodel, hmiss.symm, herrs.symm⟩

/-- An error-only `parse_and_validate_node` output is never the empty
error list. -/
theorem parse_and_validate_errsOnly_ne_nil (aliases : List (String × String))
    (tables : List String) (s : ChatState) (errs : List String)
    (h : parse_and_validate_node aliases tables s = PVOut.errsOnly errs) : errs ≠ [] := by
  unfold parse_and_validate_node at h
  split at h
  · simp only [PVOut.errsOnly.injEq] at h
    rw [← h]
    simp
  · split at h
    · simp only [PVOut.errsOnly.injEq] at h
      rw [← h]
      simp
    · simp at h

/-- When the stored table's model is found and a field is pending,
`update_context_with_user_input_node` merges the reply under the first
missing field and recomputes missing fields and errors with the
validator. -/
theorem update_context_full_of (s : ChatState) (model : PydModel) (f : String)
    (rest : List String) (hm : model_map.lookup s.table = some model)
    (hmf : s.missing_fields = f :: rest) :
    update_context_with_user_input_node s =
      UCOut.full (pyDictInsert s.partial_values f (.vStr (pyStrip s.lastMessage)))
        (validate_fields (pyDictInsert s.partial_values f (.vStr (pyStrip s.lastMessage)))
          model).missingFields
        (validate_fields (pyDictInsert s.partial_values f (.vStr (pyStrip s.lastMessage)))
          model).errors := by
  unfold update_context_with_user_input_node
  rw [hmf]
  simp only [hm]

/-- Inversion of a full `update_context_with_user_input_node` output. -/
theorem update_context_full_inv (s : ChatState) (vals : List (String × PyVal))
    (miss errs : List String)
    (h : update_context_with_user_input_node s = UCOut.full vals miss errs) :
    ∃ f rest model, s.missing_fields = f :: rest ∧
      model_map.lookup s.table = some model ∧
      vals = pyDictInsert s.partial_values f (.vStr (pyStrip s.lastMessage)) ∧
      miss = (validate_fields vals model).missingFields ∧
      errs = (validate_fields vals model).errors := by
  unfold update_context_with_user_input_node at h
  split at h
  · simp at h
  · rename_i f rest hmf
    split at h
    · rename_i model hm
      simp only [UCOut.full.injEq] at h
      obtain ⟨hvals, hmiss, herrs⟩ := h
      subst hvals
      exact ⟨f, rest, model, hmf, hm, rfl, hmiss.symm, herrs.symm⟩
    · simp at h

/-- Inversion of a values-only `update_context_with_user_input_node`
output (unknown model): the reply is merged under the first missing
field. -/
theorem update_context_pvOnly_inv (s : ChatState) (vals : List (String × PyVal))
    (h : update_context_with_user_input_node s = UCOut.pvOnly vals) :
    ∃ f rest, s.missing_fields = f :: rest ∧
      vals = pyDictInsert s.partial_values f (.vStr (pyStrip s.lastMessage)) := by
  unfold update_context_with_user_input_node at h
  split at h
  · simp at h
  · rename_i f rest hmf
    split at h
    · simp at h
    · simp only [UCOut.pvOnly.injEq] at h
      exact ⟨f, rest, hmf, h.symm⟩

/-- The analyze-intent output never changes the stored
`partial_values`: the field-value branches copy them and the new-query
branch omits the key. -/
theorem mergeAI_partial_values (gen : String → String × String × String) (s : ChatState) :
    (mergeAI s (analyze_intent_node gen s)).partial_values = s.partial_values := by
  unfold analyze_intent_node
  split
  · simp [mergeAI]
  · split
    · simp [mergeAI]
    · simp [mergeAI, apply_ite]
      split <;> simp

/-- The analyze-intent output never changes the stored
`missing_fields`. -/
theorem mergeAI_missing_fields (gen : String → String × String × String) (s : ChatState) :
    (mergeAI s (analyze_intent_node gen s)).missing_fields = s.missing_fields := by
  unfold analyze_intent_node
  split
  · simp [mergeAI]
  · split
    · simp [mergeAI]
    · simp [mergeAI, apply_ite]
      split <;> simp

/-- C6: the extractor zips the quoting-aware column and value splits
positionally and drops the `id` column (case-insensitive) for INSERT,
and drops `id` assignments for UPDATE — so no extracted map ever
contains an `id` key; and along every reachable conversation state,
`partial_values` (and the pending `missing_fields`) never contain the
primary-key column. -/
theorem c6_partial_values_never_contain_id (aliases : List (String × String))
    (tables : List String) :
    (∀ (q t op : String) (vals : List (String × PyVal)),
        parse_insert_or_update_query aliases tables q = some (t, op, vals) →
        ∀ kv ∈ vals, pyLower kv.1 ≠ "id") ∧
    (∀ s : ChatState, ReachableChatState aliases tables s → IdFreeState s) := by
  constructor
  · exact fun q t op vals h => parse_query_no_id aliases tables q t op vals h
  · intro s hs
    induction hs with
    | init =>
      constructor
      · intro kv hkv
        simp [initialChatState] at hkv
      · intro f hf
        simp [initialChatState] at hf
    | userMessage msg hR ih => exact ih
    | analyzeIntent gen hR ih =>
      rename_i s0
      constructor
      · rw [mergeAI_partial_values]
        exact ih.1
      · rw [mergeAI_missing_fields]
        exact ih.2
    | parseValidate hR ih =>
      rename_i s0
      cases hout : parse_and_validate_node aliases tables s0 with
      | errsOnly errs => exact ⟨ih.1, ih.2⟩
      | full t qt vals miss errs =>
        obtain ⟨hparse, model, hmodel, hmiss, -⟩ :=
          parse_and_validate_full_inv aliases tables s0 t qt vals miss errs hout
        constructor
        · intro kv hkv
          exact parse_query_no_id aliases tables s0.generated_query t qt vals hparse kv hkv
        · intro f hf
          rw [hmiss] at hf
          exact validate_missing_no_id model vals f hf
    | askMissingField hR ih =>
      rename_i s0
      unfold ask_for_missing_field_node
      split
      · exact ⟨ih.1, ih.2⟩
      · exact ⟨ih.1, ih.2⟩
    | updateContext hR ih =>
      rename_i s0
      cases hout : update_context_with_user_input_node s0 with
      | unchanged => exact ih
      | pvOnly vals =>
        obtain ⟨f, rest, hmf, hvals⟩ := update_context_pvOnly_inv s0 vals hout
        constructor
        · intro kv hkv
          rw [hvals] at hkv
          rcases mem_pyDictInsert _ _ _ kv hkv with h | h
          · rw [h]
            exact ih.2 f (by rw [hmf]; simp)
          · exact ih.1 kv h
        · exact ih.2
      | full vals miss errs =>
        obtain ⟨f, rest, model, hmf, -, hvals, hmiss, -⟩ :=
          update_context_full_inv s0 vals miss errs hout
        constructor
        · intro kv hkv
          rw [hvals] at hkv
          rcases mem_pyDictInsert _ _ _ kv hkv with h | h
          · rw [h]
            exact ih.2 f (by rw [hmf]; simp)
          · exact ih.1 kv h
        · intro f2 hf2
          rw [hmiss] at hf2
          exact validate_missing_no_id model vals f2 hf2
    | generateAndExecute execQ hR ih =>
      rename_i s0
      have hboth :
          (generate_and_execute_final_query_node aliases tables execQ s0).1.partial_values =
              s0.partial_values ∧
          (generate_and_execute_final_query_node aliases tables execQ s0).1.missing_fields =
              s0.missing_fields := by
        unfold generate_and_execute_final_query_node
        simp only []
        constructor
        all_goals repeat' split
        all_goals rfl
      constructor
      · intro kv hkv
        rw [hboth.1] at hkv
        exact ih.1 kv hkv
      · intro f hf
        rw [hboth.2] at hf
        exact ih.2 f hf

/-- C2: after every mutation of `partial_values` — the initial
extraction in ParseValidate and each merged reply in UpdateContext —
the stored `missing_fields` are exactly the validator's recomputation
on the new `partial_values`; and the validator's output equals the set
of required fields whose value is absent or null. -/
theorem c2_missing_fields_recomputed_with_validator (aliases : List (String × String))
    (tables : List String) (s : ChatState) :
    (∀ t qt vals miss errs,
        parse_and_validate_node aliases tables s = PVOut.full t qt vals miss errs →
        ∃ model, model_map.lookup (pyLower t) = some model ∧
          (mergePV s (PVOut.full t qt vals miss errs)).partial_values = vals ∧
          (mergePV s (PVOut.full t qt vals miss errs)).missing_fields =
            (validate_fields vals model).missingFields) ∧
    (∀ model f rest, model_map.lookup s.table = some model →
        s.missing_fields = f :: rest →
        ∃ vals,
          update_context_with_user_input_node s = UCOut.full vals
            (validate_fields vals model).missingFields
            (validate_fields vals model).errors ∧
          (mergeUC s (update_context_with_user_input_node s)).partial_values = vals ∧
          (mergeUC s (update_context_with_user_input_node s)).missing_fields =
            (validate_fields vals model).missingFields) ∧
    (∀ (m : PydModel) (vals : List (String × PyVal)) (f : String),
        f ∈ (validate_fields vals m).missingFields ↔
          f ∈ modelRequired m ∧
            (vals.lookup f = none ∨ vals.lookup f = some PyVal.vNone)) := by
  refine ⟨?_, ?_, validate_missing_iff⟩
  · intro t qt vals miss errs h
    obtain ⟨-, model, hm, hmiss, -⟩ :=
      parse_and_validate_full_inv aliases tables s t qt vals miss errs h
    exact ⟨model, hm, rfl, by simp only [mergePV]; exact hmiss⟩
  · intro model f rest hm hmf
    have h := update_context_full_of s model f rest hm hmf
    refine ⟨pyDictInsert s.partial_values f (.vStr (pyStrip s.lastMessage)), h, ?_, ?_⟩
    · rw [h]
      rfl
    · rw [h]
      rfl

/-- C2 witness: with `department` pending on the employee table, the
reply `Engineering` is merged and the missing fields are recomputed by
the validator. -/
theorem c2_witness :
    ∃ vals,
      update_context_with_user_input_node
        { initialChatState with
          lastMessage := "Engineering"
          table := "employee"
          query_type := "insert"
          partial_values := [("name", PyVal.vStr "Bob")]
          missing_fields := ["department", "salary"] } = UCOut.full vals
        (validate_fields vals PydModel.employee).missingFields
        (validate_fields vals PydModel.employee).errors ∧
      (mergeUC
        { initialChatState with
          lastMessage := "Engineering"
          table := "employee"
          query_type := "insert"
          partial_values := [("name", PyVal.vStr "Bob")]
          missing_fields := ["department", "salary"] }
        (update_context_with_user_input_node
          { initialChatState with
            lastMessage := "Engineering"
            table := "employee"
            query_type := "insert"
            partial_values := [("name", PyVal.vStr "Bob")]
            missing_fields := ["department", "salary"] })).partial_values = vals ∧
      (mergeUC
        { initialChatState with
          lastMessage := "Engineering"
          table := "employee"
          query_type := "insert"
          partial_values := [("name", PyVal.vStr "Bob")]
          missing_fields := ["department", "salary"] }
        (update_context_with_user_input_node
          { initialChatState with
            lastMessage := "Engineering"
            table := "employee"
            query_type := "insert"
            partial_values := [("name", PyVal.vStr "Bob")]
            missing_fields := ["department", "salary"] })).missing_fields =
        (validate_fields vals PydModel.employee).missingFields :=
  (c2_missing_fields_recomputed_with_validator [] ["employee", "project"] _).2.1
    PydModel.employee "department" ["salary"] (by decide) rfl

/-- The pending-request branch of `analyze_intent_node`: when the state
holds non-empty missing fields, a table, a query type and non-empty
partial values, the node returns the field-value-response dict without
looking at the message. -/
theorem analyze_intent_pending_branch (gen : String → String × String × String)
    (s : ChatState) (h1 : s.missing_fields ≠ []) (h2 : s.table ≠ "")
    (h3 : s.query_type ≠ "") (h4 : s.partial_values ≠ []) :
    analyze_intent_node gen s =
      { branch := .pendingCtx
        user_intent := s.lastMessage
        generated_query := s.generated_query
        query_type := s.query_type
        table := s.table
        partial_values := some s.partial_values
        missing_fields := some s.missing_fields
        missing_field := none
        operation_count := s.operation_count + 1
        is_field_value_response := true } := by
  have hmf : s.missing_fields.isEmpty = false := by
    cases hx : s.missing_fields with
    | nil => exact absurd hx h1
    | cons a l => rfl
  have hpv : s.partial_values.isEmpty = false := by
    cases hx : s.partial_values with
    | nil => exact absurd hx h4
    | cons a l => rfl
  have hc : (!s.missing_fields.isEmpty && decide (s.table ≠ "") &&
      decide (s.query_type ≠ "") && !s.partial_values.isEmpty) = true := by
    simp [hmf, hpv, h2, h3]
  unfold analyze_intent_node
  rw [hc]
  simp

/-- C7 (code bug): on a thread whose state holds an active pending
request (non-empty `missing_fields` with table, operation and
`partial_values`), `analyze_intent_node` does classify the incoming
message as a field-value reply — its returned dict carries
`is_field_value_response = True` — but `is_field_value_response` is
not a channel of the `State` TypedDict, so langgraph drops the write
and `_route_after_intent` reads the `state.get` default `False`: the
merged state is routed to `parse_and_validate`, and in fact no state
whatsoever is ever routed to `update_context` by this router
(`update_context` is reachable only through the static
`ask_missing_field` edge). -/
theorem c7_pending_reply_flag_dropped_misrouted :
    (analyze_intent_node (fun m => (m, "select", "employee"))
      { initialChatState with
        lastMessage := "Engineering"
        table := "employee"
        query_type := "insert"
        partial_values := [("name", PyVal.vStr "Bob")]
        missing_fields := ["department"] }).branch = IntentBranch.pendingCtx ∧
    (analyze_intent_node (fun m => (m, "select", "employee"))
      { initialChatState with
        lastMessage := "Engineering"
        table := "employee"
        query_type := "insert"
        partial_values := [("name", PyVal.vStr "Bob")]
        missing_fields := ["department"] }).is_field_value_response = true ∧
    route_after_intent (mergeAI
      { initialChatState with
        lastMessage := "Engineering"
        table := "employee"
        query_type := "insert"
        partial_values := [("name", PyVal.vStr "Bob")]
        missing_fields := ["department"] }
      (analyze_intent_node (fun m => (m, "select", "employee"))
        { initialChatState with
          lastMessage := "Engineering"
          table := "employee"
          query_type := "insert"
          partial_values := [("name", PyVal.vStr "Bob")]
          missing_fields := ["department"] })) = "parse_validate" ∧
    (∀ s : ChatState, route_after_intent s ≠ "update_context") := by
  refine ⟨by decide, by decide, by decide, ?_⟩
  intro s
  unfold route_after_intent is_field_value_response_read
  simp only [Bool.false_eq_true, if_false]
  split <;> decide

/-- C6 witness: a short conversation prefix (new message, intent
analysis producing an INSERT that names `id`, parse-and-validate) ends
in a state whose `partial_values` are id-free. -/
theorem c6_witness :
    IdFreeState (mergePV
      (mergeAI { initialChatState with lastMessage := "add employee Bob" }
        (analyze_intent_node
          (fun _ => ("INSERT INTO employee (id, name) VALUES (7, Bob)", "insert", "employee"))
          { initialChatState with lastMessage := "add employee Bob" }))
      (parse_and_validate_node [] ["employee", "project"]
        (mergeAI { initialChatState with lastMessage := "add employee Bob" }
          (analyze_intent_node
            (fun _ => ("INSERT INTO employee (id, name) VALUES (7, Bob)", "insert", "employee"))
            { initialChatState with lastMessage := "add employee Bob" })))) :=
  (c6_partial_values_never_contain_id [] ["employee", "project"]).2 _
    (ReachableChatState.parseValidate (ReachableChatState.analyzeIntent _
      (ReachableChatState.userMessage _ ReachableChatState.init)))

/-- If the validator reports no missing fields and no errors, the model
accepted the whole map. -/
theorem modelErrors_nil_of_validate_clean (m : PydModel) (vals : List (String × PyVal))
    (hmiss : (validate_fields vals m).missingFields = [])
    (herrs : (validate_fields vals m).errors = []) :
    modelErrors m vals = [] := by
  by_contra hne
  obtain ⟨e, he⟩ := List.exists_mem_of_ne_nil _ hne
  by_cases hmc : missClassB vals e = true
  · have hE2 : (modelErrors m vals).isEmpty = false := by
      cases hx : modelErrors m vals with
      | nil => exact absurd hx hne
      | cons a l => rfl
    have hmiss2 : (validate_fields vals m).missingFields =
        ((modelErrors m vals).foldl (classifyStep vals) ([], [])).1 := by
      unfold validate_fields
      simp [hE2]
    have : e.loc ∈ (validate_fields vals m).missingFields := by
      rw [hmiss2, mem_foldl_classify_fst]
      exact Or.inr ⟨e, he, rfl, hmc⟩
    rw [hmiss] at this
    simp at this
  · have hmc2 : (!missClassB vals e) = true := by
      cases hx : missClassB vals e with
      | false => rfl
      | true => exact absurd hx hmc
    have : (e.loc ++ ": " ++ e.msg) ∈ (validate_fields vals m).errors := by
      rw [validate_errors_spec]
      exact List.mem_map.mpr ⟨e, List.mem_filter.mpr ⟨he, hmc2⟩, rfl⟩
    rw [herrs] at this
    simp at this

/-- A fully accepted map is non-empty: the required `name` field must
be present. -/
theorem vals_ne_nil_of_modelErrors_nil (m : PydModel) (vals : List (String × PyVal))
    (h : modelErrors m vals = []) : vals ≠ [] := by
  intro hv
  subst hv
  have hname : "name" ∈ modelRequired m := by
    cases m <;> decide
  obtain ⟨e, he, -, -⟩ :=
    required_absent_err_exists m [] "name" hname (Or.inl (by simp))
  rw [h] at he
  simp at he

/-- A table whose lower-cased name resolves in `model_map` is not the
empty (falsy) string. -/
theorem table_ne_empty_of_model_found (t : String) (model : PydModel)
    (h : model_map.lookup (pyLower t) = some model) : t ≠ "" := by
  intro ht
  subst ht
  have hn : model_map.lookup (pyLower "") = none := by decide
  rw [hn] at h
  simp at h

/-- An UPDATE through `generate_final_sql` with no `where_clause`
always raises the unsafe-mutation error. -/
theorem generate_final_sql_update_no_where (aliases : List (String × String))
    (tables : List String) (data : List (String × PyVal)) (table : String) :
    generate_final_sql aliases tables data table "update" none =
      Except.error "WHERE clause required for safe UPDATE operation" := by
  unfold generate_final_sql
  have h1 : pyLower "update" = "update" := by decide
  rw [h1]
  simp [whereFalsy]

/-- C10: any state with query type `update` that the validation router
sends to GenerateAndExecute (the `no_missing` route out of
ParseValidate) makes the step call `generate_final_sql` without a WHERE
clause; the raised error is caught inside the step, the step executes
no statement at all (the executed-query list is empty, so the database
is untouched), and the reported `execution_result` is the
query-execution-failed message. -/
theorem c10_update_reaching_execute_never_runs (aliases : List (String × String))
    (tables : List String) (execQ : String → String) (prev : ChatState)
    (hroute : route_after_validation
      (mergePV prev (parse_and_validate_node aliases tables prev)) = "no_missing")
    (hqt : (mergePV prev (parse_and_validate_node aliases tables prev)).query_type =
      "update") :
    (generate_and_execute_final_query_node aliases tables execQ
      (mergePV prev (parse_and_validate_node aliases tables prev))).2 = [] ∧
    (generate_and_execute_final_query_node aliases tables execQ
      (mergePV prev (parse_and_validate_node aliases tables prev))).1.execution_result =
      "Query execution failed: WHERE clause required for safe UPDATE operation" := by
  cases hout : parse_and_validate_node aliases tables prev with
  | errsOnly errs =>
    exfalso
    rw [hout] at hroute
    have hne := parse_and_validate_errsOnly_ne_nil aliases tables prev errs hout
    unfold route_after_validation mergePV at hroute
    by_cases hm : prev.missing_fields = [] <;> simp [hne, hm] at hroute
  | full t qt vals miss errs =>
    rw [hout] at hroute hqt
    have hqt2 : qt = "update" := by
      simpa [mergePV] using hqt
    subst hqt2
    obtain ⟨hparse, model, hmodel, hmiss, herrs⟩ :=
      parse_and_validate_full_inv aliases tables prev t "update" vals miss errs hout
    have hm : miss = [] := by
      by_contra hm
      unfold route_after_validation mergePV at hroute
      simp [hm] at hroute
    have he : errs = [] := by
      by_contra he
      unfold route_after_validation mergePV at hroute
      simp [hm, he] at hroute
    have hnil : modelErrors model vals = [] :=
      modelErrors_nil_of_validate_clean model vals (by rw [← hmiss, hm]) (by rw [← herrs, he])
    have hvne : vals ≠ [] := vals_ne_nil_of_modelErrors_nil model vals hnil
    have htne : t ≠ "" := table_ne_empty_of_model_found t model hmodel
    have hgfs := generate_final_sql_update_no_where aliases tables vals t
    have hlow : pyLower "update" = "update" := by decide
    constructor
    · unfold generate_and_execute_final_query_node mergePV
      simp [htne, hvne, hgfs, hlow]
    · unfold generate_and_execute_final_query_node mergePV
      simp [htne, hvne, hgfs, hlow]

set_option maxRecDepth 8000 in
/-- C10 witness: a fully specified UPDATE reaches the execute step via
`no_missing` and fails safely without executing anything. -/
theorem c10_witness :
    (generate_and_execute_final_query_node [] ["employee", "project"] (fun q => q)
      (mergePV
        { initialChatState with
          generated_query := "UPDATE employee SET name = Ann, department = HR, salary = 5" }
        (parse_and_validate_node [] ["employee", "project"]
          { initialChatState with
            generated_query :=
              "UPDATE employee SET name = Ann, department = HR, salary = 5" }))).2 = [] ∧
    (generate_and_execute_final_query_node [] ["employee", "project"] (fun q => q)
      (mergePV
        { initialChatState with
          generated_query := "UPDATE employee SET name = Ann, department = HR, salary = 5" }
        (parse_and_validate_node [] ["employee", "project"]
          { initialChatState with
            generated_query :=
              "UPDATE employee SET name = Ann, department = HR, salary = 5" }))).1.execution_result =
      "Query execution failed: WHERE clause required for safe UPDATE operation" :=
  c10_update_reaching_execute_never_runs [] ["employee", "project"] (fun q => q)
    { initialChatState with
      generated_query := "UPDATE employee SET name = Ann, department = HR, salary = 5" }
    (by decide) (by decide)

/-- C8: a driver-level failure inside `execute_query` is caught and
reported as the structured error message (for every query that passes
the input guard), and a failure anywhere inside the graph invocation is
caught by `run` and returned as a structured result dict; both
functions are total, so no exception ever propagates to the caller. -/
theorem c8_execution_errors_are_structured (dbRun : String → Except String String)
    (readSql : String → Except String PyDF) (query e : String)
    (invoke : Except String RunResult) (r : String) :
    (¬(query = "" ∨ pyStartsWith (pyStrip query) "--" = true) → dbRun query = .error e →
      execute_query dbRun readSql query = .str ("Error executing query: " ++ e)) ∧
    (invoke = .error r →
      chat_run invoke =
        ⟨"An error occurred: " ++ r,
          "Sorry, I encountered an error while processing your request."⟩) := by
  constructor
  · intro hguard hdb
    unfold execute_query
    have h1 : (query = "" || pyStartsWith (pyStrip query) "--") = false := by
      push_neg at hguard
      simp [hguard.1, hguard.2]
    rw [h1]
    simp [hdb]
  · intro hinv
    rw [hinv]
    rfl

/-- C8 witness: a concrete failing driver call and a concrete failing
graph invocation both surface as structured messages. -/
theorem c8_witness :
    execute_query (fun _ => Except.error "no such table: ghost")
      (fun _ => Except.error "boom") "SELECT * FROM ghost" =
      ExecValue.str "Error executing query: no such table: ghost" ∧
    chat_run (Except.error "timeout") =
      ⟨"An error occurred: timeout",
        "Sorry, I encountered an error while processing your request."⟩ :=
  ⟨(c8_execution_errors_are_structured (fun _ => Except.error "no such table: ghost")
      (fun _ => Except.error "boom") "SELECT * FROM ghost" "no such table: ghost"
      (Except.error "timeout") "timeout").1 (by decide) rfl,
    (c8_execution_errors_are_structured (fun _ => Except.error "no such table: ghost")
      (fun _ => Except.error "boom") "SELECT * FROM ghost" "no such table: ghost"
      (Except.error "timeout") "timeout").2 rfl⟩
